import Mathlib

/-!
# A shallow embedding of the rlox tree-walking interpreter

This file embeds, in Lean 4, the parts of the `rlox` Rust sources that the
verified claims concern: the token model (`src/tokens.rs`), the scanner's
identifier/keyword machinery (`src/scanner.rs`), the recursive-descent parser
(`src/parser.rs`), the runtime value model (`src/object.rs`), the environment
chain (`src/env.rs`), the static resolver (`src/resolver.rs`), the expression
and statement evaluator (`src/interpreter.rs`), function invocation
(`src/functions.rs`) and instances (`src/class.rs`).

Modelling conventions:
* Rust `f64` number payloads are modelled as `ℚ` (exact rationals).  None of
  the verified claims depends on IEEE-754-specific behaviour (NaN, -0.0,
  rounding); they only need a numeric type with decidable equality, `+` and a
  zero test.
* `Rc<RefCell<...>>` shared mutable cells are modelled as indices into an
  explicit store that is threaded through the functions that mutate it.
* The `Env` chain (`Rc<Env>` parent pointers) is modelled as a nonempty
  `List Frame`, innermost frame first; mutation of an ancestor frame is
  modelled by returning the updated chain.
* `HashMap<String, _>` is modelled as an association list with
  insert-overwrite semantics (`mapInsert`/`mapLookup`); claims never depend
  on iteration order.
* Recursive functions whose Rust counterparts recurse through the heap or
  through token streams take an explicit fuel argument; every claim is
  settled at concrete inputs with ample fuel.
-/

/-! ## Tokens (`src/tokens.rs`) -/

/-- Token kinds, from `tokens.rs`.  The `Break` variant is *modelled from the
spec*: `tokens.rs` in the snapshot has no `Break` variant although
`parser.rs` pattern-matches on `TokenType::Break`; the spec's reserved-word
list includes `break`, so the variant is restored here so that the parser can
be embedded as written. -/
inductive TokenType where
  | LParen | RParen | LBrace | RBrace | Comma | Dot | Minus | Plus
  | SemiColon | Slash | Star
  | Bang | Equal | BangEqual | EqualEqual
  | Greater | GreaterEqual | Less | LessEqual
  | Ident | StringLiteral | Number
  | And | Class | Else | False | Fun | For | If | Nil | Or | Print
  | Return | Super | This | True | Var | While
  | Eof
  | Break
  deriving DecidableEq, Repr

/-- Literal runtime payloads, from `tokens.rs` (`enum Literal`); `f64`
modelled as `ℚ`. -/
inductive Literal where
  | nil : Literal
  | boolean : Bool → Literal
  | number : ℚ → Literal
  | string : String → Literal
  deriving DecidableEq, Repr

/-- The `RESERVED` keyword table from `tokens.rs` (16 entries; note that
`break` is *not* among them in the source). -/
def RESERVED : List (String × TokenType) :=
  [("and", .And), ("class", .Class), ("else", .Else), ("false", .False),
   ("for", .For), ("fun", .Fun), ("if", .If), ("nil", .Nil),
   ("or", .Or), ("print", .Print), ("return", .Return), ("super", .Super),
   ("this", .This), ("true", .True), ("var", .Var), ("while", .While)]

/-- `TokenType::reserved` from `tokens.rs`. -/
def TokenType.reserved (keyword : String) : Option TokenType :=
  (RESERVED.find? (fun p => p.1 == keyword)).map (·.2)

/-- `struct Token` from `tokens.rs`. -/
structure Token where
  token_type : TokenType
  lexeme : String
  literal : Option Literal := none
  line : Nat := 0
  offset : Nat := 0
  deriving DecidableEq, Repr

/-- `Token::in_types`.  Modelled from the spec: the snapshot's `tokens.rs`
does not contain the `in_types` helper that `parser.rs` and
`interpreter.rs` call; its evident meaning (and the only one that typechecks
at the call sites) is membership of the token's kind in the given list. -/
def Token.in_types (t : Token) (types : List TokenType) : Bool :=
  types.contains t.token_type

/-- `impl Display for Literal` from `tokens.rs`.  The number case models
Rust's `{}` formatting of `f64`: integral values print without a decimal
point; the precise text of non-integral numbers is not relied on by any
claim. -/
def Literal.display : Literal → String
  | .nil => "nil"
  | .boolean b => if b then "true" else "false"
  | .number n => if n.den = 1 then toString n.num else toString n
  | .string s => s

/-! ## Runtime values (`src/object.rs`, `src/class.rs`) -/

/-- `struct LoxClass` from `class.rs`.  `Rc<LoxClass>` handles are modelled
as indices into a class store (a `List LoxClass`); `parent` is the
superclass's index, `methods` maps method names to function identities. -/
structure LoxClass where
  name : String
  parent : Option Nat
  methods : List (String × Nat)
  deriving DecidableEq, Repr

/-- `struct LoxInstance` from `class.rs`: the class handle plus the shared
mutable field table `Rc<RefCell<HashMap<String, Object>>>`, modelled as an
index `fieldsRef` into a field store.  Rust's `#[derive(Clone)]` clones the
`Rc`s, i.e. both components are copied as handles, which this representation
captures. -/
structure LoxInstance where
  cls : Nat
  fieldsRef : Nat
  deriving DecidableEq, Repr

/-- `enum Object` from `object.rs`.  `Callable` and `Rc<LoxClass>` payloads
are modelled by their identities (store indices). -/
inductive Object where
  | literal : Literal → Object
  | func : Nat → Object
  | cls : Nat → Object
  | inst : LoxInstance → Object
  deriving DecidableEq, Repr

/-- Equality of `Literal`s.  Modelled from the spec: the snapshot's
`tokens.rs` has no `PartialEq` impl for `Literal` although
`object.rs` calls `lhs.eq(rhs)` on literals; the spec prescribes value
equality with different variants never equal (numbers by IEEE-754 equality,
modelled here on `ℚ`; strings by content). -/
def litEq : Literal → Literal → Bool
  | .nil, .nil => true
  | .boolean a, .boolean b => a == b
  | .number a, .number b => a == b
  | .string a, .string b => a == b
  | _, _ => false

/-- `impl PartialEq for Object` from `object.rs`: only two `Literal` objects
are compared by value; *every* other pair — including a function, class or
instance compared with itself — is unequal. -/
def Object.eq : Object → Object → Bool
  | .literal l, .literal r => litEq l r
  | _, _ => false

/-- `impl PartialOrd for Literal`.  Modelled from the spec: the snapshot has
no `PartialOrd` impl for `Literal` although `object.rs` delegates to it; the
spec says ordering requires both operands to be numbers and is otherwise a
runtime error (i.e. `None` here). -/
def litPartialCmp : Literal → Literal → Option Ordering
  | .number a, .number b => some (compare a b)
  | _, _ => none

/-- `impl PartialOrd for Object` from `object.rs`. -/
def Object.partialCmp : Object → Object → Option Ordering
  | .literal l, .literal r => litPartialCmp l r
  | _, _ => none

/-- `Object::is_truthy` from `object.rs`: `Nil` and `false` are falsey, a
number is truthy iff nonzero, a string is truthy iff nonempty, and every
non-literal object is truthy. -/
def Object.is_truthy : Object → Bool
  | .literal .nil => false
  | .literal (.boolean b) => b
  | .literal (.number n) => n != 0
  | .literal (.string s) => !s.isEmpty
  | _ => true

/-- `impl Display for Object` from `object.rs` (the cases used by `print`).
The class/instance cases display via the class store, which the claims here
do not exercise; the function case is the fixed text from the source. -/
def Object.display : Object → String
  | .literal l => l.display
  | .func _ => "<function>"
  | .cls _ => "<class>"
  | .inst _ => "<instance>"

/-! ## Errors (`src/error.rs`) -/

/-- `enum RloxError` from `error.rs` (the `Io` variant, which wraps an OS
error and is never produced by the embedded code, is omitted). -/
inductive RloxError where
  | Lexical : Nat → String → String → RloxError
  | Parse : Nat → String → String → RloxError
  | Runtime : Nat → String → String → RloxError
  | Break : Nat → RloxError
  | Return : Nat → Object → RloxError
  deriving DecidableEq, Repr

/-! ## Environments (`src/env.rs`)

An `Rc<Env>` chain is modelled as a `List Frame`, innermost frame first; the
parent of `f :: rest` is `rest` (absent when `rest` is empty).  A frame's
`RefCell<HashMap<String, Object>>` is an association list with
insert-overwrite semantics. -/

abbrev Frame := List (String × Object)

/-- `HashMap::get`. -/
def mapLookup (m : List (String × Object)) (k : String) : Option Object :=
  (m.find? (fun p => p.1 == k)).map (·.2)

/-- `HashMap::insert`: the new binding replaces any previous binding of the
key.  (A `HashMap` has no observable entry order, so the model is free to
put the fresh binding in front.) -/
def mapInsert (m : List (String × Object)) (k : String) (v : Object) :
    List (String × Object) :=
  (k, v) :: List.filter (fun p => !(p.1 == k)) m

/-- The runtime error `env.rs` raises for a name absent from a frame chain. -/
def undefinedVar (id : Token) : RloxError :=
  .Runtime id.line ("Undefined variable " ++ id.lexeme) id.lexeme

/-- The runtime error `env.rs` raises when the requested ancestor depth
exceeds the chain. -/
def ancestorUndefined (id : Token) (dist : Nat) : RloxError :=
  .Runtime id.line ("Ancestor is undefined at depth " ++ toString dist) id.lexeme

/-- `Env::get` from `env.rs`: look in the current frame, and *recurse into
the parent* when the name is absent; error only when no frame in the chain
binds the name.  (The `[]` case is unreachable — a Rust `Env` always has a
frame — and is given the same error the last real frame would produce.) -/
def Env.get : List Frame → Token → Except RloxError Object
  | [], id => .error (undefinedVar id)
  | f :: rest, id =>
    match mapLookup f id.lexeme with
    | some v => .ok v
    | none =>
      match rest with
      | [] => .error (undefinedVar id)
      | _ => Env.get rest id

/-- `Env::get_global` from `env.rs`: walk to the outermost frame, then
`get` there. -/
def Env.get_global : List Frame → Token → Except RloxError Object
  | [], id => .error (undefinedVar id)
  | [f], id => Env.get [f] id
  | _ :: rest, id => Env.get_global rest id

/-- `Env::ancestor` from `env.rs`: start from the parent, then follow the
parent pointer `dist - 1` more times; `none` when the chain is exhausted. -/
def Env.parentOf : List Frame → Option (List Frame)
  | [] => none
  | [_] => none
  | _ :: rest => some rest

def Env.ancestorLoop : Option (List Frame) → Nat → Option (List Frame)
  | env, 0 => env
  | env, n + 1 => Env.ancestorLoop (env.bind Env.parentOf) n

def Env.ancestor (chain : List Frame) (dist : Nat) : Option (List Frame) :=
  Env.ancestorLoop (Env.parentOf chain) (dist - 1)

/-- `Env::get_at` from `env.rs`: depth absent → global lookup; depth `0` →
(recursive) `get` from the current frame; depth `d > 0` → (recursive) `get`
from the `d`-th ancestor, or an ancestor-undefined error. -/
def Env.get_at (chain : List Frame) (id : Token) (dist : Option Nat) :
    Except RloxError Object :=
  match dist with
  | none => Env.get_global chain id
  | some 0 => Env.get chain id
  | some d =>
    match Env.ancestor chain d with
    | some anc => Env.get anc id
    | none => .error (ancestorUndefined id d)

/-- `Env::assign` from `env.rs`: if the current frame lacks the name,
*recurse into the parent*; error only when no frame binds it.  Mutation is
modelled by returning the updated chain alongside the assigned value. -/
def Env.assign : List Frame → Token → Object →
    Except RloxError (List Frame × Object)
  | [], id, _ => .error (undefinedVar id)
  | f :: rest, id, val =>
    if (mapLookup f id.lexeme).isSome then
      .ok (mapInsert f id.lexeme val :: rest, val)
    else
      match rest with
      | [] => .error (undefinedVar id)
      | _ => (Env.assign rest id val).map (fun (rest', v) => (f :: rest', v))

/-- `Env::assign_at` from `env.rs`: depth absent or `0` → (recursive)
`assign` from the current frame; depth `d > 0` → (recursive) `assign` from
the `d`-th ancestor.  The updated ancestor suffix is re-attached to the
untouched prefix, modelling in-place mutation of the shared frames. -/
def Env.assign_at (chain : List Frame) (id : Token) (val : Object)
    (dist : Option Nat) : Except RloxError (List Frame × Object) :=
  match dist with
  | none => Env.assign chain id val
  | some 0 => Env.assign chain id val
  | some d =>
    match Env.ancestor chain d with
    | some anc =>
      (Env.assign anc id val).map
        (fun (anc', v) => (chain.take d ++ anc', v))
    | none => .error (ancestorUndefined id d)

/-- `Env::define` from `env.rs`: unconditional insert into the current
frame. -/
def Env.define (chain : List Frame) (id : Token) (val : Object) :
    List Frame :=
  match chain with
  | [] => [[(id.lexeme, val)]]
  | f :: rest => mapInsert f id.lexeme val :: rest

/-! ## The AST (`src/expr.rs`, `src/stmt.rs`) -/

/-- `enum Expr` from `expr.rs`. -/
inductive Expr where
  | Identifier : Token → Expr
  | Literal : Token → Expr
  | Logical : Expr → Token → Expr → Expr
  | Grouping : Expr → Expr
  | Unary : Token → Expr → Expr
  | Binary : Expr → Token → Expr → Expr
  | Assignment : Token → Expr → Expr
  | Call : Expr → Token → List Expr → Expr
  | Get : Expr → Token → Expr
  | Set : Expr → Token → Expr → Expr
  | This : Token → Expr
  | Super : Token → Token → Expr
  deriving Repr

/-- `enum Stmt` from `stmt.rs`. -/
inductive Stmt where
  | Expression : Expr → Stmt
  | Print : Expr → Stmt
  | Declaration : Token → Option Expr → Stmt
  | Block : List Stmt → Stmt
  | If : Expr → Stmt → Option Stmt → Stmt
  | While : Expr → Stmt → Stmt
  | Break : Token → Stmt
  | Function : Token → List Token → Stmt → Stmt
  | Return : Token → Option Expr → Stmt
  | Class : Token → Option Expr → List Stmt → Stmt
  deriving Repr

mutual

/-- Structural equality on `Expr` (the derived `PartialEq` that
`HashMap<Expr, usize>` uses for the resolver side-table keys). -/
def Expr.beq : Expr → Expr → Bool
  | .Identifier t, .Identifier u => t == u
  | .Literal t, .Literal u => t == u
  | .Logical a t b, .Logical c u d => Expr.beq a c && t == u && Expr.beq b d
  | .Grouping a, .Grouping b => Expr.beq a b
  | .Unary t a, .Unary u b => t == u && Expr.beq a b
  | .Binary a t b, .Binary c u d => Expr.beq a c && t == u && Expr.beq b d
  | .Assignment t a, .Assignment u b => t == u && Expr.beq a b
  | .Call a t xs, .Call b u ys => Expr.beq a b && t == u && Expr.beqList xs ys
  | .Get a t, .Get b u => Expr.beq a b && t == u
  | .Set a t x, .Set b u y => Expr.beq a b && t == u && Expr.beq x y
  | .This t, .This u => t == u
  | .Super t m, .Super u n => t == u && m == n
  | _, _ => false

def Expr.beqList : List Expr → List Expr → Bool
  | [], [] => true
  | x :: xs, y :: ys => Expr.beq x y && Expr.beqList xs ys
  | _, _ => false

end

/-! ## The resolver side-table (`Interpreter::locals`, `interpreter.rs`)

`locals: Rc<HashMap<Expr, usize>>`, keyed by structural equality of
expression nodes. -/

abbrev Locals := List (Expr × Nat)

/-- `HashMap::get` on the side-table. -/
def localsGet (locals : Locals) (e : Expr) : Option Nat :=
  (List.find? (fun p => Expr.beq p.1 e) locals).map (·.2)

/-- `Interpreter::resolve` from `interpreter.rs`: `HashMap::insert` into the
side-table (the new entry replaces any previous entry for the key). -/
def localsInsert (locals : Locals) (e : Expr) (d : Nat) : Locals :=
  (e, d) :: List.filter (fun p => !(Expr.beq p.1 e)) locals

/-! ## The resolver (`src/resolver.rs`) -/

/-- `enum FunctionType` from `functions.rs`. -/
inductive FunctionType where
  | None | Function | Initializer | Method
  deriving DecidableEq, Repr

/-- The resolver's state (`struct Resolver` from `resolver.rs`), plus the
interpreter side-table it populates through `interpreter.resolve`.  `scopes`
is kept innermost-scope-first, so a `Vec::push` is a cons and `Vec::last`
is the head. -/
structure RState where
  scopes : List (List (String × Bool))
  current_func : FunctionType
  in_loop : Bool
  locals : Locals

/-- `Resolver::new`: empty scope stack, `FunctionType::None`, not in a
loop (paired with a fresh interpreter's empty side-table). -/
def RState.init : RState :=
  { scopes := [], current_func := .None, in_loop := false, locals := [] }

/-- Scope-map lookup (`HashMap<String, bool>::get`). -/
def scopeLookup (s : List (String × Bool)) (k : String) : Option Bool :=
  (List.find? (fun p => p.1 == k) s).map (·.2)

/-- Scope-map insert with overwrite (`HashMap<String, bool>::insert`). -/
def scopeInsert (s : List (String × Bool)) (k : String) (v : Bool) :
    List (String × Bool) :=
  (k, v) :: List.filter (fun p => !(p.1 == k)) s

/-- `Resolver::declare` from `resolver.rs`: no-op when the scope stack is
empty (global); otherwise insert `false` into the innermost scope, erroring
on a duplicate name there. -/
def RState.declare (st : RState) (id : Token) : Except RloxError RState :=
  match st.scopes with
  | [] => .ok st
  | s :: rest =>
    if (scopeLookup s id.lexeme).isSome then
      .error (.Parse id.line
        "variable already defined with this name in this scope" id.lexeme)
    else
      .ok { st with scopes := scopeInsert s id.lexeme false :: rest }

/-- `Resolver::define` from `resolver.rs`: mark the name `true` in the
innermost scope (no-op at global). -/
def RState.define (st : RState) (id : Token) : RState :=
  match st.scopes with
  | [] => st
  | s :: rest => { st with scopes := scopeInsert s id.lexeme true :: rest }

/-- `Resolver::resolve_local` from `resolver.rs`: find the innermost scope
containing the name; record its distance from the innermost scope in the
side-table under the given expression node; leave the table untouched when
no scope contains the name (the name is then global at runtime). -/
def RState.resolve_local (st : RState) (id : Token) (e : Expr) : RState :=
  match List.findIdx? (fun s => (scopeLookup s id.lexeme).isSome) st.scopes with
  | some j => { st with locals := localsInsert st.locals e j }
  | none => st

/-- The error used to model a Rust `unimplemented!()` panic (the resolver
has no `visit_this`/`visit_super` methods in the snapshot, so those nodes
fall through to the panicking default visitor). -/
def panicUnimplemented : RloxError :=
  .Runtime 0 "panic: unimplemented visitor" ""

/-- The artificial error returned on fuel exhaustion; never reached at the
concrete inputs the claims are settled on. -/
def outOfFuel : RloxError :=
  .Runtime 0 "out of fuel" ""

mutual

/-- The resolver's expression walk (`impl ExprVisitor for Resolver`,
`resolver.rs`). -/
def resolveExpr : Nat → RState → Expr → Except RloxError RState
  | 0, _, _ => .error outOfFuel
  | _fuel + 1, st, e =>
    match e with
    | .Identifier id =>
      -- visit_identifier: own-initializer check against the innermost scope
      let own_init :=
        match st.scopes.head? with
        | some s => match scopeLookup s id.lexeme with
                    | some is_defined => !is_defined
                    | none => false
        | none => false
      if own_init then
        .error (.Parse id.line
          "Cannot read local variable in its own initializer" id.lexeme)
      else
        .ok (st.resolve_local id e)
    | .Literal _ => .ok st
    | .Logical lhs _ rhs => do
      let st ← resolveExpr _fuel st lhs
      resolveExpr _fuel st rhs
    | .Grouping g => resolveExpr _fuel st g
    | .Unary _ rhs => resolveExpr _fuel st rhs
    | .Binary lhs _ rhs => do
      let st ← resolveExpr _fuel st lhs
      resolveExpr _fuel st rhs
    | .Assignment id val => do
      -- visit_assignment: resolve the RHS, then record the depth for the
      -- assigned name under the *assignment node itself*
      let st ← resolveExpr _fuel st val
      .ok (st.resolve_local id e)
    | .Call callee _ args => do
      let st ← resolveExpr _fuel st callee
      resolveExprs _fuel st args
    | .Get callee _ => resolveExpr _fuel st callee
    | .Set settee _ val => do
      -- visit_set resolves the value first, then the settee
      let st ← resolveExpr _fuel st val
      resolveExpr _fuel st settee
    | .This _ => .error panicUnimplemented
    | .Super _ _ => .error panicUnimplemented

def resolveExprs : Nat → RState → List Expr → Except RloxError RState
  | 0, _, _ => .error outOfFuel
  | _, st, [] => .ok st
  | _fuel + 1, st, e :: es => do
    let st ← resolveExpr _fuel st e
    resolveExprs _fuel st es

/-- The resolver's statement walk (`impl StmtVisitor for Resolver`,
`resolver.rs`). -/
def resolveStmt : Nat → RState → Stmt → Except RloxError RState
  | 0, _, _ => .error outOfFuel
  | _fuel + 1, st, s =>
    match s with
    | .Expression e => resolveExpr _fuel st e
    | .Print e => resolveExpr _fuel st e
    | .Declaration id init => do
      let st ← st.declare id
      let st ← match init with
               | some e => resolveExpr _fuel st e
               | none => .ok st
      .ok (st.define id)
    | .Block body => do
      -- begin_scope / walk / end_scope
      let st ← resolveStmts _fuel { st with scopes := [] :: st.scopes } body
      .ok { st with scopes := st.scopes.tail }
    | .If cond then_ else_ => do
      let st ← resolveExpr _fuel st cond
      let st ← resolveStmt _fuel st then_
      match else_ with
      | some e => resolveStmt _fuel st e
      | none => .ok st
    | .While cond body => do
      -- visit_while: remember in_loop, set it, walk, restore
      let prev := st.in_loop
      let st ← resolveExpr _fuel { st with in_loop := true } cond
      let st ← resolveStmt _fuel st body
      .ok { st with in_loop := prev }
    | .Break tok =>
      if !st.in_loop then .error (.Break tok.line) else .ok st
    | .Function name params body => do
      let st ← st.declare name
      let st := st.define name
      resolveFunction _fuel st params body .Function
    | .Return keyword val => do
      if st.current_func = .None then
        .error (.Parse keyword.line "cannot return from top-level code"
          keyword.lexeme)
      else
        match val with
        | some e => resolveExpr _fuel st e
        | none => .ok st
    | .Class name _parent methods => do
      -- the snapshot's visit_class ignores the superclass expression and
      -- pushes no `this`/`super` scopes; it only resolves each method body
      let st ← st.declare name
      let st := st.define name
      resolveMethods _fuel st methods

def resolveStmts : Nat → RState → List Stmt → Except RloxError RState
  | 0, _, _ => .error outOfFuel
  | _, st, [] => .ok st
  | _fuel + 1, st, s :: rest => do
    let st ← resolveStmt _fuel st s
    resolveStmts _fuel st rest

def resolveMethods : Nat → RState → List Stmt → Except RloxError RState
  | 0, _, _ => .error outOfFuel
  | _, st, [] => .ok st
  | _fuel + 1, st, m :: rest =>
    match m with
    | .Function _ params body => do
      let st ← resolveFunction _fuel st params body .Method
      resolveMethods _fuel st rest
    | _ => .error panicUnimplemented

/-- `Resolver::resolve_function` from `resolver.rs`: save and set
`current_func`, push a scope, *declare* each parameter (the snapshot never
`define`s them), walk the body, pop, restore `current_func`.  Note that
`in_loop` is deliberately left untouched here, exactly as in the source. -/
def resolveFunction : Nat → RState → List Token → Stmt → FunctionType →
    Except RloxError RState
  | 0, _, _, _, _ => .error outOfFuel
  | _fuel + 1, st, params, body, func_type => do
    let prev_type := st.current_func
    let st := { st with current_func := func_type, scopes := [] :: st.scopes }
    let st ← declareParams params st
    let st ← resolveStmt _fuel st body
    .ok { st with scopes := st.scopes.tail, current_func := prev_type }

def declareParams : List Token → RState → Except RloxError RState
  | [], st => .ok st
  | p :: ps, st => do
    let st ← st.declare p
    declareParams ps st

end

/-! ## The evaluator (`src/interpreter.rs`) -/

/-- The binary-operator dispatch of `Interpreter::visit_binary`
(`interpreter.rs`, after both operands have been evaluated).  Note the `+`
cases: `Number + Number` adds; a *string on either side paired with any
literal* concatenates the display forms (the non-string side is coerced via
`Display`); everything else is the "Cannot add mixed types" runtime
error. -/
def Interpreter.binary_result (op : Token) (lhs rhs : Object) :
    Except RloxError Object :=
  match op.token_type with
  | .Plus =>
    match lhs, rhs with
    | .literal (.number a), .literal (.number b) =>
      .ok (.literal (.number (a + b)))
    | .literal (.string ls), .literal r =>
      .ok (.literal (.string (ls ++ r.display)))
    | .literal l, .literal (.string rs) =>
      .ok (.literal (.string (l.display ++ rs)))
    | _, _ => .error (.Runtime op.line "Cannot add mixed types" "")
  | .Minus =>
    match lhs, rhs with
    | .literal (.number a), .literal (.number b) =>
      .ok (.literal (.number (a - b)))
    | _, _ => .error (.Runtime op.line "Cannot subtract non-numeric operands" "")
  | .Star =>
    match lhs, rhs with
    | .literal (.number a), .literal (.number b) =>
      .ok (.literal (.number (a * b)))
    | _, _ => .error (.Runtime op.line "Cannot multiply non-numeric operands" "")
  | .Slash =>
    match lhs, rhs with
    | .literal (.number a), .literal (.number b) =>
      if b == 0 then .error (.Runtime op.line "Divide by zero" "")
      else .ok (.literal (.number (a / b)))
    | _, _ => .error (.Runtime op.line "Cannot divide non-numerics" "")
  | .Greater | .GreaterEqual | .Less | .LessEqual =>
    match Object.partialCmp lhs rhs with
    | some .lt => .ok (.literal (.boolean (op.in_types [.Less, .LessEqual])))
    | some .eq => .ok (.literal (.boolean (op.in_types [.LessEqual, .GreaterEqual])))
    | some .gt => .ok (.literal (.boolean (op.in_types [.Greater, .GreaterEqual])))
    | none => .error (.Runtime op.line "Cannot compare types" "")
  | .EqualEqual => .ok (.literal (.boolean (Object.eq lhs rhs)))
  | .BangEqual => .ok (.literal (.boolean (!Object.eq lhs rhs)))
  | _ => .error (.Runtime op.line "Invalid binary operator" op.lexeme)

/-- The interpreter state threaded through evaluation: the `repl` flag and
environment chain of `struct Interpreter`, plus the text printed so far
(Rust's stdout). -/
structure IState where
  repl : Bool
  chain : List Frame
  output : List String
  deriving DecidableEq, Repr

/- Rust signals errors by `Err` while keeping all `RefCell` mutations
already performed; the evaluator model therefore carries the state at the
point of the error alongside it (the `Except (RloxError × IState)` error
component below). -/

/-- The error used to model AST nodes (calls, property access, `this`,
`super`, function and class declarations) that the statement-level
interpreter embedding does not model; their runtime behaviour is embedded
separately (`LoxFunction.callOutcome`, `LoxInstance.get`/`set`) and no
claim evaluates them through `evalExpr`/`execStmt`. -/
def unmodelledFeature : RloxError :=
  .Runtime 0 "feature not modelled in this embedding" ""

mutual

/-- `impl ExprVisitor<Result<Object>> for Interpreter` (`interpreter.rs`).
The `Assignment` case is verbatim from the source: the side-table depth is
looked up at `val` — the right-hand-side node — not at the assignment node
itself (`self.locals.get(val)` in `visit_assignment`). -/
def evalExpr : Nat → Locals → IState → Expr →
    Except (RloxError × IState) (Object × IState)
  | 0, _, st, _ => .error (outOfFuel, st)
  | _fuel + 1, locals, st, e =>
    match e with
    | .Literal tok =>
      match tok.literal with
      | some l => .ok (.literal l, st)
      | none => .error (.Runtime tok.line "panic: literal token without literal" tok.lexeme, st)
    | .Logical lhs op rhs => do
      let (l, st) ← evalExpr _fuel locals st lhs
      match op.token_type with
      | .Or => if l.is_truthy then .ok (l, st) else evalExpr _fuel locals st rhs
      | .And => if !l.is_truthy then .ok (l, st) else evalExpr _fuel locals st rhs
      | _ => evalExpr _fuel locals st rhs
    | .Grouping g => evalExpr _fuel locals st g
    | .Unary op rhs => do
      let (r, st) ← evalExpr _fuel locals st rhs
      match op.token_type with
      | .Minus =>
        match r with
        | .literal (.number n) => .ok (.literal (.number (-n)), st)
        | _ => .error (.Runtime op.line "Cannot negate non-numeric value" "", st)
      | .Bang => .ok (.literal (.boolean (!r.is_truthy)), st)
      | _ => .error (.Runtime op.line "Invalid unary operator" op.lexeme, st)
    | .Binary lhs op rhs => do
      let (l, st) ← evalExpr _fuel locals st lhs
      let (r, st) ← evalExpr _fuel locals st rhs
      match Interpreter.binary_result op l r with
      | .ok v => .ok (v, st)
      | .error err => .error (err, st)
    | .Assignment id val => do
      let (v, st) ← evalExpr _fuel locals st val
      -- visit_assignment: `self.env.assign_at(id, v, self.locals.get(val).copied())`
      match Env.assign_at st.chain id v (localsGet locals val) with
      | .ok (chain', v') => .ok (v', { st with chain := chain' })
      | .error err => .error (err, st)
    | .Identifier id =>
      -- visit_identifier → lookup_var: depth from the side-table at this node
      match Env.get_at st.chain id (localsGet locals e) with
      | .ok v => .ok (v, st)
      | .error err => .error (err, st)
    | .This tok =>
      match Env.get_at st.chain tok (localsGet locals e) with
      | .ok v => .ok (v, st)
      | .error err => .error (err, st)
    | .Call _ _ _ => .error (unmodelledFeature, st)
    | .Get _ _ => .error (unmodelledFeature, st)
    | .Set _ _ _ => .error (unmodelledFeature, st)
    | .Super _ _ => .error (unmodelledFeature, st)

/-- `impl StmtVisitor<Result<()>> for Interpreter` (`interpreter.rs`). -/
def execStmt : Nat → Locals → IState → Stmt →
    Except (RloxError × IState) (Unit × IState)
  | 0, _, st, _ => .error (outOfFuel, st)
  | _fuel + 1, locals, st, s =>
    match s with
    | .Expression e =>
      if st.repl then do
        let (v, st) ← evalExpr _fuel locals st e
        .ok ((), { st with output := st.output ++ [v.display] })
      else do
        let (_, st) ← evalExpr _fuel locals st e
        .ok ((), st)
    | .Print e => do
      let (v, st) ← evalExpr _fuel locals st e
      .ok ((), { st with output := st.output ++ [v.display] })
    | .Declaration id init => do
      let (v, st) ←
        match init with
        | some e => evalExpr _fuel locals st e
        | none => .ok (Object.literal .nil, st)
      .ok ((), { st with chain := Env.define st.chain id v })
    | .Block body =>
      -- visit_block: run the body in a child scope (create_scope also
      -- clears `repl`), then drop the child frame
      match execStmts _fuel locals
          { st with repl := false, chain := [] :: st.chain } body with
      | .ok ((), st') =>
        .ok ((), { st' with repl := st.repl, chain := st'.chain.tail })
      | .error (err, st') =>
        .error (err, { st' with repl := st.repl, chain := st'.chain.tail })
    | .If cond then_ else_ => do
      let (c, st) ← evalExpr _fuel locals st cond
      if c.is_truthy then
        execStmt _fuel locals st then_
      else
        match else_ with
        | some e => execStmt _fuel locals st e
        | none => .ok ((), st)
    | .While cond body => do
      let (c, st) ← evalExpr _fuel locals st cond
      if c.is_truthy then
        match execStmt _fuel locals st body with
        | .error (.Break _, st') => .ok ((), st')
        | .error e => .error e
        | .ok ((), st') => execStmt _fuel locals st' (.While cond body)
      else
        .ok ((), st)
    | .Break tok => .error (.Break tok.line, st)
    | .Return keyword val => do
      let (v, st) ←
        match val with
        | some e => evalExpr _fuel locals st e
        | none => .ok (Object.literal .nil, st)
      .error (.Return keyword.line v, st)
    | .Function _ _ _ => .error (unmodelledFeature, st)
    | .Class _ _ _ => .error (unmodelledFeature, st)

def execStmts : Nat → Locals → IState → List Stmt →
    Except (RloxError × IState) (Unit × IState)
  | 0, _, st, _ => .error (outOfFuel, st)
  | _, _, st, [] => .ok ((), st)
  | _fuel + 1, locals, st, s :: rest => do
    let ((), st) ← execStmt _fuel locals st s
    execStmts _fuel locals st rest

end

/-- The per-statement pipeline of `Runner::run` (`runner.rs`): resolve the
statement with a fresh resolver against the interpreter's side-table, then
execute it; the result is the text printed to stdout.  The initial
interpreter is `Interpreter::new(false)`: file mode, a single empty global
frame, and an empty side-table. -/
def runStmt (fuel : Nat) (s : Stmt) : Except RloxError (List String) :=
  match resolveStmt fuel RState.init s with
  | .error e => .error e
  | .ok rst =>
    match execStmt fuel rst.locals ⟨false, [[]], []⟩ s with
    | .ok ((), st) => .ok st.output
    | .error (e, _) => .error e

mutual

/-- Modelled from the spec: the evaluator exactly as `evalExpr`, except
that `visit_assignment` consults the side-table at *the assignment
expression node itself* (the spec's "`assign_at(name, value,
depth-from-side-table)`", where the side-table entry for an assignment is
the one `Resolver::visit_assignment` records under that node).  Used only
to exhibit the divergence from the source behaviour. -/
def evalExprSpec : Nat → Locals → IState → Expr →
    Except (RloxError × IState) (Object × IState)
  | 0, _, st, _ => .error (outOfFuel, st)
  | _fuel + 1, locals, st, e =>
    match e with
    | .Literal tok =>
      match tok.literal with
      | some l => .ok (.literal l, st)
      | none => .error (.Runtime tok.line "panic: literal token without literal" tok.lexeme, st)
    | .Logical lhs op rhs => do
      let (l, st) ← evalExprSpec _fuel locals st lhs
      match op.token_type with
      | .Or => if l.is_truthy then .ok (l, st) else evalExprSpec _fuel locals st rhs
      | .And => if !l.is_truthy then .ok (l, st) else evalExprSpec _fuel locals st rhs
      | _ => evalExprSpec _fuel locals st rhs
    | .Grouping g => evalExprSpec _fuel locals st g
    | .Unary op rhs => do
      let (r, st) ← evalExprSpec _fuel locals st rhs
      match op.token_type with
      | .Minus =>
        match r with
        | .literal (.number n) => .ok (.literal (.number (-n)), st)
        | _ => .error (.Runtime op.line "Cannot negate non-numeric value" "", st)
      | .Bang => .ok (.literal (.boolean (!r.is_truthy)), st)
      | _ => .error (.Runtime op.line "Invalid unary operator" op.lexeme, st)
    | .Binary lhs op rhs => do
      let (l, st) ← evalExprSpec _fuel locals st lhs
      let (r, st) ← evalExprSpec _fuel locals st rhs
      match Interpreter.binary_result op l r with
      | .ok v => .ok (v, st)
      | .error err => .error (err, st)
    | .Assignment id val => do
      let (v, st) ← evalExprSpec _fuel locals st val
      -- the one difference from `evalExpr`: the depth recorded for `e`
      match Env.assign_at st.chain id v (localsGet locals e) with
      | .ok (chain', v') => .ok (v', { st with chain := chain' })
      | .error err => .error (err, st)
    | .Identifier id =>
      match Env.get_at st.chain id (localsGet locals e) with
      | .ok v => .ok (v, st)
      | .error err => .error (err, st)
    | .This tok =>
      match Env.get_at st.chain tok (localsGet locals e) with
      | .ok v => .ok (v, st)
      | .error err => .error (err, st)
    | .Call _ _ _ => .error (unmodelledFeature, st)
    | .Get _ _ => .error (unmodelledFeature, st)
    | .Set _ _ _ => .error (unmodelledFeature, st)
    | .Super _ _ => .error (unmodelledFeature, st)

/-- Statement execution over `evalExprSpec` (identical to `execStmt`
otherwise). -/
def execStmtSpec : Nat → Locals → IState → Stmt →
    Except (RloxError × IState) (Unit × IState)
  | 0, _, st, _ => .error (outOfFuel, st)
  | _fuel + 1, locals, st, s =>
    match s with
    | .Expression e =>
      if st.repl then do
        let (v, st) ← evalExprSpec _fuel locals st e
        .ok ((), { st with output := st.output ++ [v.display] })
      else do
        let (_, st) ← evalExprSpec _fuel locals st e
        .ok ((), st)
    | .Print e => do
      let (v, st) ← evalExprSpec _fuel locals st e
      .ok ((), { st with output := st.output ++ [v.display] })
    | .Declaration id init => do
      let (v, st) ←
        match init with
        | some e => evalExprSpec _fuel locals st e
        | none => .ok (Object.literal .nil, st)
      .ok ((), { st with chain := Env.define st.chain id v })
    | .Block body =>
      match execStmtsSpec _fuel locals
          { st with repl := false, chain := [] :: st.chain } body with
      | .ok ((), st') =>
        .ok ((), { st' with repl := st.repl, chain := st'.chain.tail })
      | .error (err, st') =>
        .error (err, { st' with repl := st.repl, chain := st'.chain.tail })
    | .If cond then_ else_ => do
      let (c, st) ← evalExprSpec _fuel locals st cond
      if c.is_truthy then
        execStmtSpec _fuel locals st then_
      else
        match else_ with
        | some e => execStmtSpec _fuel locals st e
        | none => .ok ((), st)
    | .While cond body => do
      let (c, st) ← evalExprSpec _fuel locals st cond
      if c.is_truthy then
        match execStmtSpec _fuel locals st body with
        | .error (.Break _, st') => .ok ((), st')
        | .error e => .error e
        | .ok ((), st') => execStmtSpec _fuel locals st' (.While cond body)
      else
        .ok ((), st)
    | .Break tok => .error (.Break tok.line, st)
    | .Return keyword val => do
      let (v, st) ←
        match val with
        | some e => evalExprSpec _fuel locals st e
        | none => .ok (Object.literal .nil, st)
      .error (.Return keyword.line v, st)
    | .Function _ _ _ => .error (unmodelledFeature, st)
    | .Class _ _ _ => .error (unmodelledFeature, st)

def execStmtsSpec : Nat → Locals → IState → List Stmt →
    Except (RloxError × IState) (Unit × IState)
  | 0, _, st, _ => .error (outOfFuel, st)
  | _, _, st, [] => .ok ((), st)
  | _fuel + 1, locals, st, s :: rest => do
    let ((), st) ← execStmtSpec _fuel locals st s
    execStmtsSpec _fuel locals st rest

end

/-- The `runStmt` pipeline over the spec-variant evaluator. -/
def runStmtSpec (fuel : Nat) (s : Stmt) : Except RloxError (List String) :=
  match resolveStmt fuel RState.init s with
  | .error e => .error e
  | .ok rst =>
    match execStmtSpec fuel rst.locals ⟨false, [[]], []⟩ s with
    | .ok ((), st) => .ok st.output
    | .error (e, _) => .error e

/-! ## Function invocation (`src/functions.rs`) -/

/-- The `THIS` token constant from `class.rs` (`lazy_static`): type `This`,
lexeme `"this"`, remaining fields from `Token::default()`. -/
def THIS : Token := { token_type := .This, lexeme := "this" }

/-- The result dispatch of `LoxFunction::call` (`functions.rs`, lines
89–96).  The function first builds a child frame of its closure and binds
the parameters; that frame only influences how the body runs, so the body's
outcome is taken as an argument here.  The dispatch on the outcome is
verbatim: when `init` is set, *both* a normal completion and *any* `Return`
signal (its payload discarded) answer with `closure.get_at(&THIS, Some(0))`;
otherwise a normal completion yields `Nil`, a `Return` yields its payload,
and every other error — including a `Break` signal — propagates to the
caller. -/
def LoxFunction.callOutcome (init : Bool) (closure : List Frame)
    (bodyResult : Except RloxError Unit) : Except RloxError Object :=
  match bodyResult with
  | .ok () =>
    if init then Env.get_at closure THIS (some 0)
    else .ok (.literal .nil)
  | .error (.Return _ ret) =>
    if init then Env.get_at closure THIS (some 0)
    else .ok ret
  | .error e => .error e

/-! ## Classes and instances (`src/class.rs`) -/

/-- The store backing every live `Rc<RefCell<HashMap<String, Object>>>`
field table; an instance's `fieldsRef` indexes into it. -/
abbrev FieldStore := List (List (String × Object))

/-- `LoxClass::find_method` from `class.rs`: the class's own method map
first, then the superclass chain.  `classes` is the class store; the fuel
bounds the parent-chain walk. -/
def LoxClass.find_method (classes : List LoxClass) :
    Nat → Nat → String → Option Nat
  | 0, _, _ => none
  | fuel + 1, cid, name =>
    match classes.get? cid with
    | none => none
    | some c =>
      match (c.methods.find? (fun p => p.1 == name)).map (·.2) with
      | some m => some m
      | none =>
        match c.parent with
        | some p => LoxClass.find_method classes fuel p name
        | none => none

/-- `LoxInstance::get` from `class.rs`: a field wins over a method; a found
field is returned as `obj.clone()` (which clones `Rc` handles, i.e. the
representation unchanged); a method is returned bound
(`method.bind(self)` — the fresh bound closure is modelled opaquely by the
method's identity); otherwise "Undefined property".  -/
def LoxInstance.get (classes : List LoxClass) (store : FieldStore)
    (inst : LoxInstance) (field : Token) : Except RloxError Object :=
  match (store.get? inst.fieldsRef).bind (fun fs => mapLookup fs field.lexeme) with
  | some obj => .ok obj
  | none =>
    match LoxClass.find_method classes (classes.length + 1) inst.cls field.lexeme with
    | some m => .ok (Object.func m)
    | none =>
      .error (.Runtime field.line ("Undefined property " ++ field.lexeme)
        field.lexeme)

/-- `LoxInstance::set` from `class.rs`: insert into the *shared* field
table (`self.fields.borrow_mut().insert(...)`) and yield the value. -/
def LoxInstance.set (store : FieldStore) (inst : LoxInstance) (field : Token)
    (val : Object) : FieldStore × Object :=
  (store.set inst.fieldsRef
    (mapInsert ((store.get? inst.fieldsRef).getD []) field.lexeme val), val)

/-- Rust `Object::clone` (the derived `Clone`): literals are copied by
value, and the `Rc` handles inside functions, classes and instances are
`Rc::clone`d — the clone denotes the same shared cells, so on this
representation cloning is the identity, case by case. -/
def Object.clone : Object → Object
  | .literal l => .literal l
  | .func f => .func f
  | .cls c => .cls c
  | .inst i => .inst ⟨i.cls, i.fieldsRef⟩

/-! ## The parser (`src/parser.rs`)

`struct Parser` holds a peekable token stream and the lexical
`loop_depth` counter; the stream is modelled as the list of still-unread
tokens.  (Lexical-error items in the stream are not modelled: every claim
is settled on well-formed token lists, on which `check`/`check_advance`
behave identically.) -/

/-- `FUNCTION_MAX_ARGS` from `stmt.rs`. -/
def FUNCTION_MAX_ARGS : Nat := 255

structure PState where
  src : List Token
  loop_depth : Nat
  deriving DecidableEq, Repr

/-- `Parser::check`: does the next token's kind belong to `types`? -/
def PState.check (p : PState) (types : List TokenType) : Bool :=
  match p.src.head? with
  | some t => t.in_types types
  | none => false

/-- `Parser::check_advance`: consume and return the next token when its
kind matches. -/
def PState.check_advance (p : PState) (types : List TokenType) :
    Option Token × PState :=
  if p.check types then
    match p.src with
    | t :: rest => (some t, { p with src := rest })
    | [] => (none, p)
  else
    (none, p)

/-- `Parser::unexpected`. -/
def Parser.unexpected (t : Token) : RloxError :=
  .Parse t.line "Unexpected Token"
    (if t.token_type = .Eof then "EOF" else t.lexeme)

/-- `Parser::peek_err` (the typo in the end-of-stream message is the
source's). -/
def PState.peek_err (p : PState) : RloxError :=
  match p.src.head? with
  | some t => Parser.unexpected t
  | none => .Parse 0 "" "Unexpectef EOF"

/-- `Parser::must_advance`. -/
def PState.must_advance (p : PState) (types : List TokenType) :
    Except RloxError (Token × PState) :=
  match p.check_advance types with
  | (some t, p) => .ok (t, p)
  | (none, p) => .error p.peek_err

mutual

/-- `Parser::statement` from `parser.rs`.  The dispatch set is exactly the
source's: `Print Var LBrace If While For Break Fun` — *no* `Return` and no
`Class` alternative; any other token falls through to `expr_statement`. -/
def Parser.statement : Nat → PState → Except RloxError (Stmt × PState)
  | 0, _ => .error outOfFuel
  | _fuel + 1, p =>
    match p.check_advance [.Print, .Var, .LBrace, .If, .While, .For, .Break, .Fun] with
    | (none, p) => Parser.expr_statement _fuel p
    | (some tok, p) =>
      match tok.token_type with
      | .Print => Parser.print_statement _fuel p
      | .Var => Parser.decl_statement _fuel p
      | .LBrace => Parser.block_statement _fuel p
      | .If => Parser.if_statement _fuel p
      | .While => Parser.while_statement _fuel p
      | .For => Parser.for_statement _fuel p
      | .Break => Parser.break_statement _fuel p tok
      | .Fun => Parser.function _fuel p
      | _ => .error (.Runtime 0 "panic: unreachable" "")

def Parser.print_statement : Nat → PState → Except RloxError (Stmt × PState)
  | 0, _ => .error outOfFuel
  | _fuel + 1, p => do
    let (e, p) ← Parser.expression _fuel p
    let (_, p) ← p.must_advance [.SemiColon]
    .ok (.Print e, p)

def Parser.expr_statement : Nat → PState → Except RloxError (Stmt × PState)
  | 0, _ => .error outOfFuel
  | _fuel + 1, p => do
    let (e, p) ← Parser.expression _fuel p
    let (_, p) ← p.must_advance [.SemiColon]
    .ok (.Expression e, p)

def Parser.decl_statement : Nat → PState → Except RloxError (Stmt × PState)
  | 0, _ => .error outOfFuel
  | _fuel + 1, p => do
    let (id, p) ← p.must_advance [.Ident]
    match p.check_advance [.Equal] with
    | (none, p) => do
      let (_, p) ← p.must_advance [.SemiColon]
      .ok (.Declaration id none, p)
    | (some _, p) => do
      let (init, p) ← Parser.expression _fuel p
      let (_, p) ← p.must_advance [.SemiColon]
      .ok (.Declaration id (some init), p)

/-- `Parser::block_statement`: collect statements until a `}` is consumed
*or the stream runs dry* (the source then still answers `Ok`). -/
def Parser.block_statement : Nat → PState → Except RloxError (Stmt × PState)
  | 0, _ => .error outOfFuel
  | _fuel + 1, p => do
    let (stmts, p) ← Parser.block_items _fuel p []
    .ok (.Block stmts, p)

def Parser.block_items : Nat → PState → List Stmt →
    Except RloxError (List Stmt × PState)
  | 0, _, _ => .error outOfFuel
  | _fuel + 1, p, acc =>
    match p.check_advance [.RBrace] with
    | (some _, p) => .ok (acc.reverse, p)
    | (none, p) =>
      if p.src.isEmpty then .ok (acc.reverse, p)
      else do
        let (s, p) ← Parser.statement _fuel p
        Parser.block_items _fuel p (s :: acc)

def Parser.if_statement : Nat → PState → Except RloxError (Stmt × PState)
  | 0, _ => .error outOfFuel
  | _fuel + 1, p => do
    let (_, p) ← p.must_advance [.LParen]
    let (cond, p) ← Parser.expression _fuel p
    let (_, p) ← p.must_advance [.RParen]
    let (then_stmt, p) ← Parser.statement _fuel p
    match p.check_advance [.Else] with
    | (some _, p) => do
      let (else_stmt, p) ← Parser.statement _fuel p
      .ok (.If cond then_stmt (some else_stmt), p)
    | (none, p) => .ok (.If cond then_stmt none, p)

/-- `Parser::while_statement`: `loop_depth` is incremented for the whole
extent of the loop's parse — including any function body nested in the
loop body — and decremented afterwards. -/
def Parser.while_statement : Nat → PState → Except RloxError (Stmt × PState)
  | 0, _ => .error outOfFuel
  | _fuel + 1, p => do
    let p := { p with loop_depth := p.loop_depth + 1 }
    let (_, p) ← p.must_advance [.LParen]
    let (cond, p) ← Parser.expression _fuel p
    let (_, p) ← p.must_advance [.RParen]
    let (body, p) ← Parser.statement _fuel p
    let p := { p with loop_depth := p.loop_depth - 1 }
    .ok (.While cond body, p)

/-- `Parser::for_statement`, including the desugaring into
`Block [init, While cond (Block [body, step])]`. -/
def Parser.for_statement : Nat → PState → Except RloxError (Stmt × PState)
  | 0, _ => .error outOfFuel
  | _fuel + 1, p => do
    let (_, p) ← p.must_advance [.LParen]
    let (init, p) ←
      match p.check_advance [.SemiColon, .Var] with
      | (none, p) =>
        (Parser.expr_statement _fuel p).map (fun (s, p) => (some s, p))
      | (some t, p) =>
        match t.token_type with
        | .SemiColon => .ok (none, p)
        | _ => (Parser.decl_statement _fuel p).map (fun (s, p) => (some s, p))
    let (cond, p) ←
      match p.check_advance [.SemiColon] with
      | (some t, p) =>
        .ok (Expr.Literal { token_type := .True, lexeme := "true",
                            literal := some (.boolean true),
                            line := t.line, offset := t.offset }, p)
      | (none, p) => do
        let (e, p) ← Parser.expression _fuel p
        let (_, p) ← p.must_advance [.SemiColon]
        .ok (e, p)
    let (inc, p) ←
      match p.check_advance [.RParen] with
      | (none, p) => do
        let (e, p) ← Parser.expression _fuel p
        let (_, p) ← p.must_advance [.RParen]
        .ok (some (Stmt.Expression e), p)
      | (some _, p) => .ok (none, p)
    let (body, p) ← Parser.statement _fuel p
    let body := match inc with
                | some i => Stmt.Block [body, i]
                | none => body
    let body := Stmt.While cond body
    let body := match init with
                | some i => Stmt.Block [i, body]
                | none => body
    .ok (body, p)

/-- `Parser::break_statement`: accepted exactly when `loop_depth > 0`
(a purely lexical condition), else the `Break` parse error. -/
def Parser.break_statement : Nat → PState → Token →
    Except RloxError (Stmt × PState)
  | 0, _, _ => .error outOfFuel
  | _fuel + 1, p, token =>
    if p.loop_depth > 0 then do
      let (_, p) ← p.must_advance [.SemiColon]
      .ok (.Break token, p)
    else
      .error (.Break token.line)

def Parser.function : Nat → PState → Except RloxError (Stmt × PState)
  | 0, _ => .error outOfFuel
  | _fuel + 1, p => do
    let (name, p) ← p.must_advance [.Ident]
    let (_, p) ← p.must_advance [.LParen]
    let (params, p) ←
      if !p.check [.RParen] then Parser.param_list _fuel p name []
      else .ok ([], p)
    let (_, p) ← p.must_advance [.RParen]
    let (_, p) ← p.must_advance [.LBrace]
    let (body, p) ← Parser.block_statement _fuel p
    .ok (.Function name params body, p)

def Parser.param_list : Nat → PState → Token → List Token →
    Except RloxError (List Token × PState)
  | 0, _, _, _ => .error outOfFuel
  | _fuel + 1, p, name, acc =>
    if acc.length ≥ FUNCTION_MAX_ARGS then
      .error (.Parse name.line
        ("Cannot have more than " ++ toString FUNCTION_MAX_ARGS ++ " parameters")
        name.lexeme)
    else do
      let (param, p) ← p.must_advance [.Ident]
      match p.check_advance [.Comma] with
      | (none, p) => .ok ((acc ++ [param]), p)
      | (some _, p) => Parser.param_list _fuel p name (acc ++ [param])

def Parser.expression : Nat → PState → Except RloxError (Expr × PState)
  | 0, _ => .error outOfFuel
  | _fuel + 1, p => Parser.assignment _fuel p

/-- `Parser::assignment`: parse a `logical_or`; on a following `=`, the
left side must be an `Identifier` (the snapshot has no `Get` target case),
else "Unexpected Token" at the `=`. -/
def Parser.assignment : Nat → PState → Except RloxError (Expr × PState)
  | 0, _ => .error outOfFuel
  | _fuel + 1, p => do
    let (expr, p) ← Parser.logical_or _fuel p
    match p.check_advance [.Equal] with
    | (some equals, p) =>
      match expr with
      | .Identifier token =>
        (Parser.assignment _fuel p).map
          (fun (v, p) => (.Assignment token v, p))
      | _ => .error (Parser.unexpected equals)
    | (none, p) => .ok (expr, p)

def Parser.logical_or : Nat → PState → Except RloxError (Expr × PState)
  | 0, _ => .error outOfFuel
  | _fuel + 1, p => do
    let (e, p) ← Parser.logical_and _fuel p
    Parser.logical_or_rest _fuel p e

def Parser.logical_or_rest : Nat → PState → Expr →
    Except RloxError (Expr × PState)
  | 0, _, _ => .error outOfFuel
  | _fuel + 1, p, expr =>
    match p.check_advance [.Or] with
    | (some op, p) => do
      let (rhs, p) ← Parser.logical_and _fuel p
      Parser.logical_or_rest _fuel p (.Logical expr op rhs)
    | (none, p) => .ok (expr, p)

def Parser.logical_and : Nat → PState → Except RloxError (Expr × PState)
  | 0, _ => .error outOfFuel
  | _fuel + 1, p => do
    let (e, p) ← Parser.equality _fuel p
    Parser.logical_and_rest _fuel p e

def Parser.logical_and_rest : Nat → PState → Expr →
    Except RloxError (Expr × PState)
  | 0, _, _ => .error outOfFuel
  | _fuel + 1, p, expr =>
    match p.check_advance [.And] with
    | (some op, p) => do
      let (rhs, p) ← Parser.equality _fuel p
      Parser.logical_and_rest _fuel p (.Logical expr op rhs)
    | (none, p) => .ok (expr, p)

def Parser.equality : Nat → PState → Except RloxError (Expr × PState)
  | 0, _ => .error outOfFuel
  | _fuel + 1, p => do
    let (e, p) ← Parser.comparison _fuel p
    Parser.equality_rest _fuel p e

def Parser.equality_rest : Nat → PState → Expr →
    Except RloxError (Expr × PState)
  | 0, _, _ => .error outOfFuel
  | _fuel + 1, p, expr =>
    match p.check_advance [.BangEqual, .EqualEqual] with
    | (some op, p) => do
      let (rhs, p) ← Parser.comparison _fuel p
      Parser.equality_rest _fuel p (.Binary expr op rhs)
    | (none, p) => .ok (expr, p)

def Parser.comparison : Nat → PState → Except RloxError (Expr × PState)
  | 0, _ => .error outOfFuel
  | _fuel + 1, p => do
    let (e, p) ← Parser.term _fuel p
    Parser.comparison_rest _fuel p e

def Parser.comparison_rest : Nat → PState → Expr →
    Except RloxError (Expr × PState)
  | 0, _, _ => .error outOfFuel
  | _fuel + 1, p, expr =>
    match p.check_advance [.Greater, .GreaterEqual, .Less, .LessEqual] with
    | (some op, p) => do
      let (rhs, p) ← Parser.term _fuel p
      Parser.comparison_rest _fuel p (.Binary expr op rhs)
    | (none, p) => .ok (expr, p)

def Parser.term : Nat → PState → Except RloxError (Expr × PState)
  | 0, _ => .error outOfFuel
  | _fuel + 1, p => do
    let (e, p) ← Parser.factor _fuel p
    Parser.term_rest _fuel p e

def Parser.term_rest : Nat → PState → Expr →
    Except RloxError (Expr × PState)
  | 0, _, _ => .error outOfFuel
  | _fuel + 1, p, expr =>
    match p.check_advance [.Plus, .Minus] with
    | (some op, p) => do
      let (rhs, p) ← Parser.factor _fuel p
      Parser.term_rest _fuel p (.Binary expr op rhs)
    | (none, p) => .ok (expr, p)

def Parser.factor : Nat → PState → Except RloxError (Expr × PState)
  | 0, _ => .error outOfFuel
  | _fuel + 1, p => do
    let (e, p) ← Parser.unary _fuel p
    Parser.factor_rest _fuel p e

def Parser.factor_rest : Nat → PState → Expr →
    Except RloxError (Expr × PState)
  | 0, _, _ => .error outOfFuel
  | _fuel + 1, p, expr =>
    match p.check_advance [.Slash, .Star] with
    | (some op, p) => do
      let (rhs, p) ← Parser.unary _fuel p
      Parser.factor_rest _fuel p (.Binary expr op rhs)
    | (none, p) => .ok (expr, p)

def Parser.unary : Nat → PState → Except RloxError (Expr × PState)
  | 0, _ => .error outOfFuel
  | _fuel + 1, p =>
    match p.check_advance [.Bang, .Minus] with
    | (some op, p) =>
      (Parser.unary _fuel p).map (fun (rhs, p) => (.Unary op rhs, p))
    | (none, p) => Parser.call _fuel p

/-- `Parser::call`: the postfix loop only recognises `(` call suffixes —
the snapshot has no `.` property-access suffix. -/
def Parser.call : Nat → PState → Except RloxError (Expr × PState)
  | 0, _ => .error outOfFuel
  | _fuel + 1, p => do
    let (e, p) ← Parser.primary _fuel p
    Parser.call_rest _fuel p e

def Parser.call_rest : Nat → PState → Expr →
    Except RloxError (Expr × PState)
  | 0, _, _ => .error outOfFuel
  | _fuel + 1, p, expr =>
    match p.check_advance [.LParen] with
    | (some _, p) => do
      let (e, p) ← Parser.finish_call _fuel p expr
      Parser.call_rest _fuel p e
    | (none, p) => .ok (expr, p)

def Parser.finish_call : Nat → PState → Expr →
    Except RloxError (Expr × PState)
  | 0, _, _ => .error outOfFuel
  | _fuel + 1, p, callee => do
    let (args, p) ←
      if !p.check [.RParen] then Parser.arg_list _fuel p []
      else .ok ([], p)
    let (rparen, p) ← p.must_advance [.RParen]
    .ok (.Call callee rparen args, p)

def Parser.arg_list : Nat → PState → List Expr →
    Except RloxError (List Expr × PState)
  | 0, _, _ => .error outOfFuel
  | _fuel + 1, p, acc =>
    if acc.length ≥ FUNCTION_MAX_ARGS then
      .error (.Parse 0 "Cannot have more than 255 arguments" "")
    else do
      let (e, p) ← Parser.expression _fuel p
      match p.check_advance [.Comma] with
      | (some _, p) => Parser.arg_list _fuel p (acc ++ [e])
      | (none, p) => .ok (acc ++ [e], p)

/-- `Parser::primary`.  Only `NUMBER STRING true false nil IDENT ( expr )`
are accepted — the snapshot has no `this`, no `super.` and no class-related
primaries; anything else is `peek_err`.  (Quirk kept from the source: the
closing `)` of a grouping is requested but the result — including a
failure — is discarded.) -/
def Parser.primary : Nat → PState → Except RloxError (Expr × PState)
  | 0, _ => .error outOfFuel
  | _fuel + 1, p =>
    match p.check_advance [.Nil, .False, .True, .Number, .StringLiteral, .Ident] with
    | (some token, p) =>
      match token.token_type with
      | .Ident => .ok (.Identifier token, p)
      | _ => .ok (.Literal token, p)
    | (none, p) =>
      match p.check_advance [.LParen] with
      | (some _, p) => do
        let (e, p) ← Parser.expression _fuel p
        match p.must_advance [.RParen] with
        | .ok (_, p') => .ok (.Grouping e, p')
        | .error _ => .ok (.Grouping e, p)
      | (none, p) => .error p.peek_err

end

/-! ## The scanner (`src/scanner.rs`)

The character stream is modelled as a `List Char`; an exhausted list plays
the role of the `'\0'` sentinel the Rust scanner synthesises at end of
input.  Line numbers are threaded; the `offset` bookkeeping (and hence the
`offset` field of produced tokens) is not modelled and is left `0`. -/

/-- `is_alphanumeric` from `scanner.rs`: ASCII letters and digits — *plus
the character `=`*; note that `_` is absent. -/
def is_alphanumeric (ch : Char) : Bool :=
  ch.isAlphanum || ch == '='

/-- `Scanner::advance_until`: consume characters until the next one is in
`charset` or the stream is exhausted; returns the last consumed character
(`'\0'` when none was), the consumed characters, and the rest. -/
def Scanner.advance_until (charset : List Char) :
    List Char → Char → Char × List Char × List Char
  | [], last => (last, [], [])
  | c :: rest, last =>
    if charset.contains c then (last, [], c :: rest)
    else
      let (l, consumed, remaining) := Scanner.advance_until charset rest c
      (l, c :: consumed, remaining)

/-- The body of the `loop` in `Scanner::string`: `lex` is the lexeme
accumulated so far (starting with the opening quote).  A `"` preceded by a
consumed `\` pops the backslash from the lexeme and keeps scanning (the
quote itself is consumed into the lexeme by the loop-bottom `advance`);
a newline bumps the line counter; end of input is "Unterminated String". -/
def Scanner.stringLoop : Nat → Nat → List Char → List Char →
    Except RloxError (List Char × Nat × List Char)
  | 0, _, _, _ => .error outOfFuel
  | fuel + 1, line, lex, src =>
    let (last, consumed, src) := Scanner.advance_until ['\n', '"'] src '\x00'
    let lex := lex ++ consumed
    match src with
    | [] => .error (.Lexical line "Unterminated String" (String.mk lex))
    | c :: rest =>
      if c == '"' && last == '\\' then
        Scanner.stringLoop fuel line (lex.dropLast ++ [c]) rest
      else if c == '"' then
        .ok (lex ++ [c], line, rest)
      else
        Scanner.stringLoop fuel (line + 1) (lex ++ [c]) rest

/-- `Scanner::string` (called after the opening quote was consumed): the
literal is the lexeme without its first and last characters (the two
quotes). -/
def Scanner.string (fuel line : Nat) (src : List Char) :
    Except RloxError Token × Nat × List Char :=
  match Scanner.stringLoop fuel line ['"'] src with
  | .error e => (.error e, line, src)
  | .ok (lex, line, rest) =>
    let lit := (lex.drop 1).dropLast
    (.ok { token_type := .StringLiteral, lexeme := String.mk lex,
           literal := some (.string (String.mk lit)), line := line }, line, rest)

/-- Decimal digits to a natural number. -/
def digitsToNat (ds : List Char) : Nat :=
  ds.foldl (fun acc c => 10 * acc + (c.toNat - '0'.toNat)) 0

/-- `Scanner::number` (called with the first digit already consumed):
consume further digits, then a fractional part only when a `.` is followed
by a digit; the numeric value models Rust's `str::parse::<f64>` of the
lexeme. -/
def Scanner.number (line : Nat) (first : Char) (src : List Char) :
    Except RloxError Token × Nat × List Char :=
  let intPart := src.takeWhile Char.isDigit
  let src := src.dropWhile Char.isDigit
  let intDigits := first :: intPart
  match src with
  | '.' :: c :: rest =>
    if c.isDigit then
      let fracPart := c :: rest.takeWhile Char.isDigit
      let rest := rest.dropWhile Char.isDigit
      let lexeme := String.mk (intDigits ++ '.' :: fracPart)
      let value : ℚ :=
        (digitsToNat intDigits : ℚ) +
          (digitsToNat fracPart : ℚ) / ((10 : ℚ) ^ fracPart.length)
      (.ok { token_type := .Number, lexeme := lexeme,
             literal := some (.number value), line := line }, line, rest)
    else
      (.ok { token_type := .Number, lexeme := String.mk intDigits,
             literal := some (.number (digitsToNat intDigits : ℚ)),
             line := line }, line, '.' :: c :: rest)
  | _ =>
    (.ok { token_type := .Number, lexeme := String.mk intDigits,
           literal := some (.number (digitsToNat intDigits : ℚ)),
           line := line }, line, src)

/-- `Scanner::identifer` (sic), called with the first character already
consumed: consume while `is_alphanumeric`, then classify the lexeme through
`TokenType::reserved`, attaching the `Nil`/`Boolean` literals for the
`nil`/`true`/`false` keywords. -/
def Scanner.identifer (line : Nat) (first : Char) (src : List Char) :
    Except RloxError Token × Nat × List Char :=
  let cont := src.takeWhile is_alphanumeric
  let rest := src.dropWhile is_alphanumeric
  let lexeme := String.mk (first :: cont)
  let token_type := (TokenType.reserved lexeme).getD .Ident
  let literal : Option Literal :=
    match token_type with
    | .Nil => some .nil
    | .True => some (.boolean true)
    | .False => some (.boolean false)
    | _ => none
  (.ok { token_type := token_type, lexeme := lexeme, literal := literal,
         line := line }, line, rest)

/-- A single-character token (the `self.token(...)` calls in
`Scanner::next`). -/
def Scanner.simpleTok (tt : TokenType) (lexeme : String) (line : Nat)
    (rest : List Char) : Except RloxError Token × Nat × List Char :=
  (.ok { token_type := tt, lexeme := lexeme, line := line }, line, rest)

/-- `Scanner::match_token` for the two-character operators: consume a
following `=` when present. -/
def Scanner.matchEq (line : Nat) (src : List Char)
    (two : TokenType × String) (one : TokenType × String) :
    Except RloxError Token × Nat × List Char :=
  match src with
  | '=' :: rest => Scanner.simpleTok two.1 two.2 line rest
  | _ => Scanner.simpleTok one.1 one.2 line src

/-- `<Scanner as Iterator>::next` from `scanner.rs`: produce the next token
(or lexical error); an exhausted stream produces the `Eof` token.  The
whitespace and `//`-comment arms loop, modelled by fueled recursion. -/
def Scanner.next_token : Nat → Nat → List Char →
    Except RloxError Token × Nat × List Char
  | 0, line, src => (.error outOfFuel, line, src)
  | fuel + 1, line, src =>
    match src with
    | [] => (.ok { token_type := .Eof, lexeme := "", line := line }, line, [])
    | c :: rest =>
      if c == '(' then Scanner.simpleTok .LParen "(" line rest
      else if c == ')' then Scanner.simpleTok .RParen ")" line rest
      else if c == '{' then Scanner.simpleTok .LBrace "\x7b" line rest
      else if c == '}' then Scanner.simpleTok .RBrace "\x7d" line rest
      else if c == ',' then Scanner.simpleTok .Comma "," line rest
      else if c == '.' then Scanner.simpleTok .Dot "." line rest
      else if c == '-' then Scanner.simpleTok .Minus "-" line rest
      else if c == '+' then Scanner.simpleTok .Plus "+" line rest
      else if c == ';' then Scanner.simpleTok .SemiColon ";" line rest
      else if c == '*' then Scanner.simpleTok .Star "*" line rest
      else if c == '!' then Scanner.matchEq line rest (.BangEqual, "!=") (.Bang, "!")
      else if c == '=' then Scanner.matchEq line rest (.EqualEqual, "==") (.Equal, "=")
      else if c == '>' then Scanner.matchEq line rest (.GreaterEqual, ">=") (.Greater, ">")
      else if c == '<' then Scanner.matchEq line rest (.LessEqual, "<=") (.Less, "<")
      else if c == '/' then
        match rest with
        | '/' :: r2 =>
          let (_, _, remaining) := Scanner.advance_until ['\n'] r2 '\x00'
          Scanner.next_token fuel line remaining
        | _ => Scanner.simpleTok .Slash "/" line rest
      else if c.isWhitespace then
        if c == '\n' then Scanner.next_token fuel (line + 1) rest
        else Scanner.next_token fuel line rest
      else if c == '"' then Scanner.string fuel line rest
      else if c.isDigit then Scanner.number line c rest
      else if is_alphanumeric c then Scanner.identifer line c rest
      else (.error (.Lexical line "Unexpected Character" (String.mk [c])), line, rest)

/-- Scan the first token of a source string (line counter starting at 1,
as in `Scanner::new`). -/
def scanOne (s : String) : Except RloxError Token :=
  (Scanner.next_token 1000 1 s.data).1

deriving instance DecidableEq for Except

/-! ## Shared concrete fixtures for the claim theorems -/

/-- An identifier token. -/
def mkIdent (s : String) (line : Nat) : Token :=
  { token_type := .Ident, lexeme := s, line := line }

/-- A number-literal token. -/
def mkNum (q : ℚ) (line : Nat) : Token :=
  { token_type := .Number, lexeme := "n", literal := some (.number q),
    line := line }

/-- A `+` operator token. -/
def plusTok : Token := { token_type := .Plus, lexeme := "+", line := 1 }

/-- An `==` operator token. -/
def eqeqTok : Token := { token_type := .EqualEqual, lexeme := "==", line := 1 }

/-- A `!=` operator token. -/
def bangeqTok : Token := { token_type := .BangEqual, lexeme := "!=", line := 1 }

/-! ## C1 — truthiness -/

/-- C1, as stated, is false on the code: the claim says every value other
than `Nil` and `false` is truthy — "including the number 0 and the empty
string" — but `Object::is_truthy` maps the number `0` (and `""`) to
`false`.  Refuted at the concrete input `Number 0`. -/
theorem c1_counterexample :
    ¬ (∀ v : Object, v.is_truthy = false ↔
        (v = .literal .nil ∨ v = .literal (.boolean false))) := by
  intro h
  rcases (h (.literal (.number 0))).mp (by decide) with h' | h' <;> simp at h'

/-- C1 amended: truthiness is `false` exactly on `Nil`, `false`, the
number `0` and the empty string; every other value (including every
function, class and instance) is truthy. -/
theorem c1_truthiness_amended :
    ∀ v : Object, v.is_truthy = false ↔
      (v = .literal .nil ∨ v = .literal (.boolean false) ∨
       v = .literal (.number 0) ∨ v = .literal (.string "")) := by
  intro v
  match v with
  | .literal .nil => simp [Object.is_truthy]
  | .literal (.boolean b) => cases b <;> simp [Object.is_truthy]
  | .literal (.number n) =>
    by_cases hn : n = 0 <;> simp [Object.is_truthy, hn]
  | .literal (.string s) =>
    by_cases hs : s = "" <;>
      simp [Object.is_truthy, hs, String.isEmpty_iff]
  | .func f => simp [Object.is_truthy]
  | .cls c => simp [Object.is_truthy]
  | .inst i => simp [Object.is_truthy]

/-! ## C2 — the `+` operator -/

/-- C2, as stated, is false on the code: the claim says a string combined
with a non-string operand is a runtime error, but `visit_binary` coerces
the non-string side through `Display` and concatenates.  Refuted at
`"a" + 1`, which evaluates to the string `"a1"`. -/
theorem c2_counterexample :
    ¬ (∀ (s : String) (q : ℚ), ∃ e,
        Interpreter.binary_result plusTok
          (.literal (.string s)) (.literal (.number q)) = .error e) := by
  intro h
  obtain ⟨e, he⟩ := h "a" 1
  rw [show Interpreter.binary_result plusTok
        (.literal (.string "a")) (.literal (.number 1))
      = .ok (.literal (.string "a1")) by rfl] at he
  exact Except.noConfusion he

/-- Is the literal a string? -/
def Literal.isStr : Literal → Bool
  | .string _ => true
  | _ => false

/-- The amended `+` semantics, written the way the amended claim reads:
two numbers add; two literals with a string on at least one side
concatenate their display forms; everything else is the "Cannot add mixed
types" runtime error. -/
def plusSpec (line : Nat) (l r : Object) : Except RloxError Object :=
  match l, r with
  | .literal (.number a), .literal (.number b) =>
    .ok (.literal (.number (a + b)))
  | .literal ll, .literal rl =>
    if ll.isStr || rl.isStr then
      .ok (.literal (.string (ll.display ++ rl.display)))
    else
      .error (.Runtime line "Cannot add mixed types" "")
  | _, _ => .error (.Runtime line "Cannot add mixed types" "")

/-- C2 amended: `+` adds two numbers; when both operands are literals and
at least one side is a string, it concatenates the display forms (the
non-string side is coerced, *not* an error); every other combination —
two non-string non-number literals, or any function/class/instance
operand — is a runtime error. -/
theorem c2_plus_amended :
    ∀ (op : Token), op.token_type = .Plus →
      ∀ l r : Object, Interpreter.binary_result op l r = plusSpec op.line l r := by
  intro op hop l r
  match l, r with
  | .literal .nil, .literal .nil => simp [Interpreter.binary_result, hop, plusSpec, Literal.isStr]
  | .literal .nil, .literal (.boolean b) => simp [Interpreter.binary_result, hop, plusSpec, Literal.isStr]
  | .literal .nil, .literal (.number b) => simp [Interpreter.binary_result, hop, plusSpec, Literal.isStr]
  | .literal .nil, .literal (.string b) => simp [Interpreter.binary_result, hop, plusSpec, Literal.isStr, Literal.display]
  | .literal (.boolean a), .literal .nil => simp [Interpreter.binary_result, hop, plusSpec, Literal.isStr]
  | .literal (.boolean a), .literal (.boolean b) => simp [Interpreter.binary_result, hop, plusSpec, Literal.isStr]
  | .literal (.boolean a), .literal (.number b) => simp [Interpreter.binary_result, hop, plusSpec, Literal.isStr]
  | .literal (.boolean a), .literal (.string b) => simp [Interpreter.binary_result, hop, plusSpec, Literal.isStr, Literal.display]
  | .literal (.number a), .literal .nil => simp [Interpreter.binary_result, hop, plusSpec, Literal.isStr]
  | .literal (.number a), .literal (.boolean b) => simp [Interpreter.binary_result, hop, plusSpec, Literal.isStr]
  | .literal (.number a), .literal (.number b) => simp [Interpreter.binary_result, hop, plusSpec]
  | .literal (.number a), .literal (.string b) => simp [Interpreter.binary_result, hop, plusSpec, Literal.isStr, Literal.display]
  | .literal (.string a), .literal rl => simp [Interpreter.binary_result, hop, plusSpec, Literal.isStr, Literal.display]
  | .literal ll, .func n => cases ll <;> simp [Interpreter.binary_result, hop, plusSpec]
  | .literal ll, .cls n => cases ll <;> simp [Interpreter.binary_result, hop, plusSpec]
  | .literal ll, .inst i => cases ll <;> simp [Interpreter.binary_result, hop, plusSpec]
  | .func n, r => simp [Interpreter.binary_result, hop, plusSpec]
  | .cls n, r => simp [Interpreter.binary_result, hop, plusSpec]
  | .inst i, r => simp [Interpreter.binary_result, hop, plusSpec]

/-- Witness for `c2_plus_amended` at `+` on `"a" + 1`. -/
theorem c2_plus_amended_witness :
    plusTok.token_type = .Plus ∧
    Interpreter.binary_result plusTok
      (.literal (.string "a")) (.literal (.number 1)) = plusSpec 1 (.literal (.string "a")) (.literal (.number 1)) :=
  ⟨rfl, c2_plus_amended plusTok rfl (.literal (.string "a")) (.literal (.number 1))⟩

/-! ## C9 — equality -/

/-- C9, as stated, is false on the code: the claim says functions, classes
and instances compare by identity (so `v == v` is true for them), but
`impl PartialEq for Object` answers `false` for every non-literal pair.
Refuted at the function value with identity `0` compared with itself. -/
theorem c9_counterexample :
    ¬ (∀ v : Object,
        ((∃ n, v = .func n) ∨ (∃ n, v = .cls n) ∨ (∃ i, v = .inst i)) →
        Object.eq v v = true) := by
  intro h
  have := h (.func 0) (.inl ⟨0, rfl⟩)
  simp [Object.eq] at this

/-- C9 amended: `==` compares two literals by value (same-variant payload
equality; different variants are never equal), and *every* comparison
involving a function, class or instance — including a value with itself —
is false; `visit_binary` turns this into the `Boolean` results of `==` and
`!=`. -/
theorem c9_equality_amended :
    (∀ l r : Literal, Object.eq (.literal l) (.literal r) = litEq l r) ∧
    (∀ a b, litEq (.boolean a) (.boolean b) = (a == b)) ∧
    (∀ a b : ℚ, litEq (.number a) (.number b) = (a == b)) ∧
    (∀ a b : String, litEq (.string a) (.string b) = (a == b)) ∧
    (∀ b, litEq .nil (.boolean b) = false) ∧
    (∀ q : ℚ, litEq .nil (.number q) = false) ∧
    (∀ s, litEq .nil (.string s) = false) ∧
    (∀ b, litEq (.boolean b) .nil = false) ∧
    (∀ b (q : ℚ), litEq (.boolean b) (.number q) = false) ∧
    (∀ b s, litEq (.boolean b) (.string s) = false) ∧
    (∀ q : ℚ, litEq (.number q) .nil = false) ∧
    (∀ (q : ℚ) b, litEq (.number q) (.boolean b) = false) ∧
    (∀ (q : ℚ) s, litEq (.number q) (.string s) = false) ∧
    (∀ s, litEq (.string s) .nil = false) ∧
    (∀ s b, litEq (.string s) (.boolean b) = false) ∧
    (∀ s (q : ℚ), litEq (.string s) (.number q) = false) ∧
    (∀ n, Object.eq (.func n) (.func n) = false) ∧
    (∀ n, Object.eq (.cls n) (.cls n) = false) ∧
    (∀ i, Object.eq (.inst i) (.inst i) = false) ∧
    (∀ n w, Object.eq (.func n) w = false) ∧
    (∀ n w, Object.eq (.cls n) w = false) ∧
    (∀ i w, Object.eq (.inst i) w = false) ∧
    (∀ (l : Literal) (n : Nat), Object.eq (.literal l) (.func n) = false) ∧
    (∀ (l : Literal) (n : Nat), Object.eq (.literal l) (.cls n) = false) ∧
    (∀ (l : Literal) (i : LoxInstance),
      Object.eq (.literal l) (.inst i) = false) ∧
    (∀ l r : Object, Interpreter.binary_result eqeqTok l r
        = .ok (.literal (.boolean (Object.eq l r)))) ∧
    (∀ l r : Object, Interpreter.binary_result bangeqTok l r
        = .ok (.literal (.boolean (!Object.eq l r)))) := by
  refine ⟨fun l r => rfl, fun a b => rfl, fun a b => rfl, fun a b => rfl,
    fun b => rfl, fun q => rfl, fun s => rfl, fun b => rfl, fun b q => rfl,
    fun b s => rfl, fun q => rfl, fun q b => rfl, fun q s => rfl,
    fun s => rfl, fun s b => rfl, fun s q => rfl, fun n => rfl, fun n => rfl,
    fun i => rfl, ?_, ?_, ?_, fun l n => rfl, fun l n => rfl, fun l i => rfl,
    fun l r => rfl, fun l r => rfl⟩
  · intro n w; cases w <;> rfl
  · intro n w; cases w <;> rfl
  · intro i w; cases w <;> rfl

/-! ## C4 — `get_at` / `assign_at` frame selection -/

/-- The innermost binding of a name in a frame chain (the specification
function the amended C4 is stated against). -/
def firstBinding : List Frame → String → Option Object
  | [], _ => none
  | f :: rest, n =>
    match mapLookup f n with
    | some v => some v
    | none => firstBinding rest n

/-- Update the innermost frame binding the name (specification function
for the amended `assign_at`). -/
def assignFirst : List Frame → String → Object → Option (List Frame)
  | [], _, _ => none
  | f :: rest, n, v =>
    match mapLookup f n with
    | some _ => some (mapInsert f n v :: rest)
    | none => (assignFirst rest n v).map (f :: ·)

/-- `Env::get` returns the innermost binding of the name anywhere in the
chain, and errors only when no frame binds it. -/
theorem Env.get_eq_firstBinding (frames : List Frame) (id : Token) :
    Env.get frames id =
      match firstBinding frames id.lexeme with
      | some v => .ok v
      | none => .error (undefinedVar id) := by
  induction frames with
  | nil => rfl
  | cons f rest ih =>
    cases rest with
    | nil =>
      simp only [Env.get, firstBinding]
      cases mapLookup f id.lexeme with
      | some v => rfl
      | none => rfl
    | cons g t =>
      simp only [Env.get, firstBinding]
      cases mapLookup f id.lexeme with
      | some v => rfl
      | none => exact ih

/-- `Env::assign` updates the innermost binding of the name anywhere in
the chain, and errors only when no frame binds it. -/
theorem Env.assign_eq_assignFirst (frames : List Frame) (id : Token)
    (val : Object) :
    Env.assign frames id val =
      match assignFirst frames id.lexeme val with
      | some frames' => .ok (frames', val)
      | none => .error (undefinedVar id) := by
  induction frames with
  | nil => rfl
  | cons f rest ih =>
    cases hml : mapLookup f id.lexeme with
    | some v =>
      simp [Env.assign, assignFirst, hml]
    | none =>
      simp only [Env.assign, assignFirst, hml, Option.isSome_none,
        Bool.false_eq_true, if_false]
      cases rest with
      | nil => rfl
      | cons g t =>
        rw [ih]
        cases assignFirst (g :: t) id.lexeme val with
        | some fr => rfl
        | none => rfl

theorem Env.ancestorLoop_none (n : Nat) : Env.ancestorLoop none n = none := by
  induction n with
  | zero => rfl
  | succ n ih => rw [Env.ancestorLoop]; exact ih

theorem Env.ancestorLoop_some (n : Nat) :
    ∀ (s : List Frame), s ≠ [] →
      Env.ancestorLoop (some s) n =
        if n < s.length then some (s.drop n) else none := by
  induction n with
  | zero =>
    intro s hs
    cases s with
    | nil => exact absurd rfl hs
    | cons f t => simp [Env.ancestorLoop]
  | succ n ih =>
    intro s hs
    cases s with
    | nil => exact absurd rfl hs
    | cons f t =>
      rw [Env.ancestorLoop]
      cases t with
      | nil =>
        simp [Option.bind, Env.parentOf, Env.ancestorLoop_none]
      | cons g u =>
        have h1 : (some (f :: g :: u)).bind Env.parentOf = some (g :: u) := rfl
        rw [h1, ih (g :: u) (by simp)]
        simp [List.length, Nat.succ_lt_succ_iff]

/-- `Env::ancestor` walks exactly `d ≥ 1` parents: it answers the chain
suffix `chain.drop d` when that many parents exist, and `none`
otherwise. -/
theorem Env.ancestor_eq_drop (chain : List Frame) (d : Nat) (hd : 1 ≤ d) :
    Env.ancestor chain d =
      if d < chain.length then some (chain.drop d) else none := by
  rw [Env.ancestor]
  cases chain with
  | nil =>
    simp [Env.parentOf, Env.ancestorLoop_none]
  | cons f t =>
    cases t with
    | nil =>
      rw [show Env.parentOf [f] = none from rfl, Env.ancestorLoop_none]
      have h1 : ¬ (d < 1) := by omega
      simp [h1]
    | cons g u =>
      rw [show Env.parentOf (f :: g :: u) = some (g :: u) from rfl,
        Env.ancestorLoop_some (d - 1) (g :: u) (by simp)]
      have hiff : d - 1 < (g :: u).length ↔ d < (f :: g :: u).length := by
        simp [List.length]; omega
      by_cases h : d < (f :: g :: u).length
      · rw [if_pos (hiff.mpr h), if_pos h]
        have h2 : (f :: g :: u).drop d = (g :: u).drop (d - 1) := by
          cases d with
          | zero => omega
          | succ k => simp
        rw [h2]
      · rw [if_neg (fun hc => h (hiff.mp hc)), if_neg h]

/-- C4, as stated, is false on the code: the claim says `get_at` with
depth `0` looks *only* in the current frame and a binding missing there is
a runtime error with no fallback; but `get_at(_, Some(0))` calls the
*recursive* `Env::get`, which falls back to enclosing frames.  Refuted on
the chain `[{}, {x ↦ 1}]`: the current frame is empty, yet the lookup
succeeds with the parent's binding. -/
theorem c4_counterexample :
    ¬ (∀ (chain : List Frame) (id : Token),
        mapLookup (chain.headD []) id.lexeme = none →
        ∃ e, Env.get_at chain id (some 0) = .error e) := by
  intro h
  obtain ⟨e, he⟩ := h [[], [("x", .literal (.number 1))]] (mkIdent "x" 1) rfl
  rw [show Env.get_at [[], [("x", .literal (.number 1))]] (mkIdent "x" 1)
        (some 0) = .ok (.literal (.number 1)) from rfl] at he
  exact Except.noConfusion he

/-- C4 amended: `get_at` with depth `d` (for `d` within the chain) walks
up `d` parents and then looks the name up *with fallback through the
enclosing frames*: it returns the innermost binding at depth ≥ `d`, and a
name absent from frame `d` and all of its ancestors is the runtime
"Undefined variable" error.  `assign_at` selects its target frame the same
way: it updates the innermost frame at depth ≥ `d` that binds the name. -/
theorem c4_frame_selection_amended :
    (∀ (chain : List Frame) (id : Token) (d : Nat), d < chain.length →
      Env.get_at chain id (some d) =
        match firstBinding (chain.drop d) id.lexeme with
        | some v => .ok v
        | none => .error (undefinedVar id)) ∧
    (∀ (chain : List Frame) (id : Token) (val : Object) (d : Nat),
      d < chain.length →
      Env.assign_at chain id val (some d) =
        match assignFirst (chain.drop d) id.lexeme val with
        | some frames' => .ok (chain.take d ++ frames', val)
        | none => .error (undefinedVar id)) := by
  constructor
  · intro chain id d hd
    match d with
    | 0 =>
      rw [show Env.get_at chain id (some 0) = Env.get chain id from rfl,
        Env.get_eq_firstBinding]
      rfl
    | d + 1 =>
      have hanc := Env.ancestor_eq_drop chain (d + 1) (by omega)
      rw [if_pos hd] at hanc
      show (match Env.ancestor chain (d + 1) with
            | some anc => Env.get anc id
            | none => .error (ancestorUndefined id (d + 1))) = _
      rw [hanc]
      show Env.get (chain.drop (d + 1)) id = _
      rw [Env.get_eq_firstBinding]
  · intro chain id val d hd
    match d with
    | 0 =>
      rw [show Env.assign_at chain id val (some 0)
            = Env.assign chain id val from rfl,
        Env.assign_eq_assignFirst]
      rfl
    | d + 1 =>
      have hanc := Env.ancestor_eq_drop chain (d + 1) (by omega)
      rw [if_pos hd] at hanc
      show (match Env.ancestor chain (d + 1) with
            | some anc => (Env.assign anc id val).map
                (fun (p : List Frame × Object) => (chain.take (d + 1) ++ p.1, p.2))
            | none => .error (ancestorUndefined id (d + 1))) = _
      rw [hanc]
      show (Env.assign (chain.drop (d + 1)) id val).map
          (fun (p : List Frame × Object) => (chain.take (d + 1) ++ p.1, p.2)) = _
      rw [Env.assign_eq_assignFirst]
      cases assignFirst (chain.drop (d + 1)) id.lexeme val with
      | some fr => rfl
      | none => rfl

/-- Witness for `c4_frame_selection_amended` on the chain
`[{}, {x ↦ 1}, {x ↦ 2}]` at depth 1: the lookup skips the current frame,
finds the middle frame's binding, and the assignment updates that same
frame. -/
theorem c4_frame_selection_amended_witness :
    (1 < ([[], [("x", Object.literal (.number 1))],
           [("x", Object.literal (.number 2))]] : List Frame).length ∧
      Env.get_at [[], [("x", .literal (.number 1))], [("x", .literal (.number 2))]]
        (mkIdent "x" 1) (some 1) = .ok (.literal (.number 1))) ∧
    (1 < ([[], [("x", Object.literal (.number 1))],
           [("x", Object.literal (.number 2))]] : List Frame).length ∧
      Env.assign_at [[], [("x", .literal (.number 1))], [("x", .literal (.number 2))]]
        (mkIdent "x" 1) (.literal (.number 7)) (some 1) =
        .ok ([[], [("x", .literal (.number 7))], [("x", .literal (.number 2))]],
          .literal (.number 7))) := by
  constructor
  · refine ⟨by decide, ?_⟩
    rw [c4_frame_selection_amended.1
      [[], [("x", .literal (.number 1))], [("x", .literal (.number 2))]]
      (mkIdent "x" 1) 1 (by decide)]
    rfl
  · refine ⟨by decide, ?_⟩
    rw [c4_frame_selection_amended.2
      [[], [("x", .literal (.number 1))], [("x", .literal (.number 2))]]
      (mkIdent "x" 1) (.literal (.number 7)) 1 (by decide)]
    rfl

/-! ## C3 — assignment depth lookup -/

/-- A token of arbitrary kind. -/
def mkTok (tt : TokenType) (lex : String) (line : Nat) : Token :=
  { token_type := tt, lexeme := lex, line := line }

/-- The failing program for C3:
```
{ var c = 5; var a = 1; { var a = 2; a = c; print a; } print a; }
```
The resolver records depth 0 for the assignment node `a = c` (the inner
`a`), while the identifier `c` inside it resolves at depth 1. -/
def progC3 : Stmt :=
  .Block [
    .Declaration (mkIdent "c" 1) (some (.Literal (mkNum 5 1))),
    .Declaration (mkIdent "a" 2) (some (.Literal (mkNum 1 2))),
    .Block [
      .Declaration (mkIdent "a" 3) (some (.Literal (mkNum 2 3))),
      .Expression (.Assignment (mkIdent "a" 4) (.Identifier (mkIdent "c" 4))),
      .Print (.Identifier (mkIdent "a" 5))
    ],
    .Print (.Identifier (mkIdent "a" 6))
  ]

/-- The side-table the resolver computes for `progC3`. -/
def c3Locals : Locals :=
  match resolveStmt 100 RState.init progC3 with
  | .ok rst => rst.locals
  | .error _ => []

/-- C3: the resolver records depth 0 under the assignment node `a = c`,
but the evaluator passes `assign_at` the depth looked up at the
*right-hand-side* node (`self.locals.get(val)`), here the depth 1 recorded
for the identifier `c`.  Running the program under the source evaluator
therefore assigns the *outer* `a` and prints `2` then `5`; the
spec-variant evaluator (depth from the assignment node, as the claim
states) assigns the inner `a` and prints `5` then `1`. -/
theorem c3_assignment_depth_bug :
    localsGet c3Locals (.Assignment (mkIdent "a" 4) (.Identifier (mkIdent "c" 4)))
      = some 0 ∧
    localsGet c3Locals (.Identifier (mkIdent "c" 4)) = some 1 ∧
    runStmt 100 progC3 = .ok ["2", "5"] ∧
    runStmtSpec 100 progC3 = .ok ["5", "1"] := by
  refine ⟨by decide, by decide, by decide, by decide⟩

/-! ## C5 — `return` / `class` statements in the parser -/

/-- The token stream of `return 1;`. -/
def returnStmtTokens : List Token :=
  [mkTok .Return "return" 1, mkNum 1 1, mkTok .SemiColon ";" 1,
   mkTok .Eof "" 1]

/-- The token stream of `class A { }`. -/
def classDeclTokens : List Token :=
  [mkTok .Class "class" 1, mkIdent "A" 1, mkTok .LBrace "\x7b" 1,
   mkTok .RBrace "\x7d" 1, mkTok .Eof "" 1]

/-- C5: the parser's statement dispatch has no `Return` and no `Class`
alternative, so both `return 1;` and `class A { }` fall through to
`expr_statement` and die in `primary` with "Unexpected Token" — they are
*not* parsed as `Return`/`Class` statements, although `Stmt` has both
variants and the resolver and evaluator fully implement them. -/
theorem c5_return_class_rejected :
    Parser.statement 50 ⟨returnStmtTokens, 0⟩
      = .error (.Parse 1 "Unexpected Token" "return") ∧
    Parser.statement 50 ⟨classDeclTokens, 0⟩
      = .error (.Parse 1 "Unexpected Token" "class") := by
  exact ⟨rfl, rfl⟩

/-! ## C6 — keywords and identifiers in the scanner -/

/-- C6, as stated, is false on the code: `break` is not in the `RESERVED`
table, so the scanner tokenizes it as an ordinary identifier — refuting
"`break` is never an identifier". -/
theorem c6_counterexample :
    ¬ (∀ t : Token, scanOne "break" = .ok t → t.token_type ≠ .Ident) := by
  intro h
  exact h { token_type := .Ident, lexeme := "break", line := 1 }
    (by decide) rfl

/-- C6 amended: the scanner's keyword table holds exactly
`and class else false fun for if nil or print return super this true var
while` — `break` is *not* reserved and scans as an identifier.  An
identifier begins with an ASCII letter and continues with ASCII letters,
digits, *or `=`* — an underscore is not an identifier character (it is a
lexical error), while `=` extends an identifier (`a=b` is one
identifier token). -/
theorem c6_scanner_amended :
    (RESERVED.all (fun p =>
      match scanOne p.1 with
      | .ok t => t.token_type == p.2 && t.lexeme == p.1
      | .error _ => false)) = true ∧
    RESERVED.find? (fun p => p.1 == "break") = none ∧
    scanOne "break" = .ok { token_type := .Ident, lexeme := "break", line := 1 } ∧
    scanOne "ab3" = .ok { token_type := .Ident, lexeme := "ab3", line := 1 } ∧
    scanOne "a=b" = .ok { token_type := .Ident, lexeme := "a=b", line := 1 } ∧
    scanOne "x_y" = .ok { token_type := .Ident, lexeme := "x", line := 1 } ∧
    scanOne "_x" = .error (.Lexical 1 "Unexpected Character" "_") := by
  refine ⟨by decide, by decide, by decide, by decide, by decide, by decide,
    by decide⟩

/-! ## C7 — initializers return the bound instance -/

/-- C7: a function with `is_initializer = true` whose closure's own frame
binds `this` to an instance answers that instance in every termination
mode — normal completion, a bare `return` (its payload is the `Nil` that
`visit_return` substitutes), and `return v` for any value `v`, whose
payload is discarded. -/
theorem c7_initializer_returns_instance :
    ∀ (f : Frame) (rest : List Frame) (i : LoxInstance) (l : Nat) (v : Object),
      mapLookup f "this" = some (.inst i) →
      LoxFunction.callOutcome true (f :: rest) (.ok ()) = .ok (.inst i) ∧
      LoxFunction.callOutcome true (f :: rest)
        (.error (.Return l (.literal .nil))) = .ok (.inst i) ∧
      LoxFunction.callOutcome true (f :: rest)
        (.error (.Return l v)) = .ok (.inst i) := by
  intro f rest i l v h
  have hget : Env.get (f :: rest) THIS = .ok (.inst i) := by
    rw [Env.get_eq_firstBinding]
    rw [show THIS.lexeme = "this" from rfl]
    rw [firstBinding, h]
  have h0 : Env.get_at (f :: rest) THIS (some 0) = .ok (.inst i) := hget
  exact ⟨h0, hget, hget⟩

/-- Witness for `c7_initializer_returns_instance`: the closure frame
`{this ↦ instance ⟨0, 0⟩}`. -/
theorem c7_initializer_returns_instance_witness :
    mapLookup [("this", Object.inst ⟨0, 0⟩)] "this" = some (.inst ⟨0, 0⟩) ∧
    (LoxFunction.callOutcome true [[("this", Object.inst ⟨0, 0⟩)]] (.ok ())
        = .ok (.inst ⟨0, 0⟩) ∧
      LoxFunction.callOutcome true [[("this", Object.inst ⟨0, 0⟩)]]
        (.error (.Return 3 (.literal .nil))) = .ok (.inst ⟨0, 0⟩) ∧
      LoxFunction.callOutcome true [[("this", Object.inst ⟨0, 0⟩)]]
        (.error (.Return 3 (.literal (.number 9)))) = .ok (.inst ⟨0, 0⟩)) :=
  ⟨by decide,
   c7_initializer_returns_instance [("this", Object.inst ⟨0, 0⟩)] [] ⟨0, 0⟩ 3
     (.literal (.number 9)) (by decide)⟩

/-! ## C8 — `break` placement -/

/-- The token stream of `while (true) { fun f() { break; } }`. -/
def c8Tokens : List Token :=
  [mkTok .While "while" 1, mkTok .LParen "(" 1, mkTok .True "true" 1,
   mkTok .RParen ")" 1, mkTok .LBrace "\x7b" 1,
   mkTok .Fun "fun" 2, mkIdent "f" 2, mkTok .LParen "(" 2,
   mkTok .RParen ")" 2, mkTok .LBrace "\x7b" 2,
   mkTok .Break "break" 3, mkTok .SemiColon ";" 3,
   mkTok .RBrace "\x7d" 4, mkTok .RBrace "\x7d" 5, mkTok .Eof "" 5]

/-- The statement those tokens parse to: a `break` inside the body of a
function declared inside a `while` body. -/
def c8Stmt : Stmt :=
  .While (.Literal (mkTok .True "true" 1))
    (.Block [.Function (mkIdent "f" 2) []
      (.Block [.Break (mkTok .Break "break" 3)])])

/-- C8, as stated, is false on the code: a `break` in the body of a
function declared inside a loop is accepted by *both* static checks — the
parser (whose `loop_depth` stays positive while the nested function body
is parsed) and the resolver (whose `in_loop` flag is not reset by
`resolve_function`) — and at runtime `LoxFunction::call` forwards a
`Break` signal out of the call (`Err(e) => Err(e)`), so a `Break` *can*
cross a function-call boundary. -/
theorem c8_counterexample :
    Parser.statement 50 ⟨c8Tokens, 0⟩
      = .ok (c8Stmt, ⟨[mkTok .Eof "" 5], 0⟩) ∧
    (∃ rst : RState, resolveStmt 100 RState.init c8Stmt = .ok rst) ∧
    (∀ (line : Nat) (closure : List Frame),
      LoxFunction.callOutcome false closure (.error (.Break line))
        = .error (.Break line)) :=
  ⟨rfl, ⟨_, rfl⟩, fun _ _ => rfl⟩

/-- C8 amended: the static checks accept `break` whenever it occurs
lexically within a `while` —*including* inside the body of a function
declared in the loop (the parser's `loop_depth` and the resolver's
`in_loop` both persist into nested function bodies) — and reject it
outside any loop; consequently a `Break` signal raised inside a called
function propagates across the function-call boundary to the caller
rather than being stopped at the call. -/
theorem c8_break_amended :
    Parser.statement 50 ⟨c8Tokens, 0⟩
      = .ok (c8Stmt, ⟨[mkTok .Eof "" 5], 0⟩) ∧
    (∃ rst : RState, resolveStmt 100 RState.init c8Stmt = .ok rst) ∧
    Parser.statement 50
        ⟨[mkTok .Break "break" 1, mkTok .SemiColon ";" 1, mkTok .Eof "" 1], 0⟩
      = .error (.Break 1) ∧
    resolveStmt 100 RState.init (.Break (mkTok .Break "break" 1))
      = .error (.Break 1) ∧
    (∀ (line : Nat) (closure : List Frame),
      LoxFunction.callOutcome false closure (.error (.Break line))
        = .error (.Break line)) :=
  ⟨rfl, ⟨_, rfl⟩, rfl, rfl, fun _ _ => rfl⟩

/-! ## C10 — instance copies alias one field table -/

theorem listSet_get? (store : FieldStore) (idx : Nat)
    (m : List (String × Object)) (h : idx < store.length) :
    (store.set idx m).get? idx = some m := by
  induction store generalizing idx with
  | nil => simp at h
  | cons f t ih =>
    cases idx with
    | zero => rfl
    | succ k =>
      simp only [List.set, List.get?]
      exact ih k (by simpa using h)

theorem mapLookup_mapInsert (m : List (String × Object)) (k : String)
    (v : Object) : mapLookup (mapInsert m k v) k = some v := by
  simp [mapLookup, mapInsert, List.find?]

/-- C10: every copy of an instance value shares the field table.  Cloning
any `Object` — in particular the clone `Env::get` hands back for a value
read out of an environment — leaves the handles unchanged, and a field
written through one copy (`LoxInstance::set`) is read back through any
clone of the instance (`LoxInstance::get`), for any class table: the
freshly set field wins before any method lookup. -/
theorem c10_instance_fields_shared :
    (∀ obj : Object, Object.clone obj = obj) ∧
    (∀ (classes : List LoxClass) (store : FieldStore) (i j : LoxInstance)
       (field : Token) (v : Object),
       i.fieldsRef < store.length →
       Object.clone (.inst i) = .inst j →
       LoxInstance.get classes (LoxInstance.set store i field v).1 j field
         = .ok v) := by
  constructor
  · intro obj; cases obj <;> rfl
  · intro classes store i j field v hlen hclone
    have hj : i = j := by
      cases i
      exact (Object.inst.injEq _ _).mp hclone
    subst hj
    unfold LoxInstance.get LoxInstance.set
    rw [listSet_get? store i.fieldsRef _ hlen]
    rw [show (some (mapInsert ((store.get? i.fieldsRef).getD []) field.lexeme v)).bind
          (fun fs => mapLookup fs field.lexeme)
        = mapLookup (mapInsert ((store.get? i.fieldsRef).getD []) field.lexeme v)
            field.lexeme from rfl]
    rw [mapLookup_mapInsert]

/-- Witness for `c10_instance_fields_shared`: a one-cell store, the
instance `⟨0, 0⟩` and its clone; setting `x := 1` through the original and
reading `x` through the clone. -/
theorem c10_instance_fields_shared_witness :
    ((⟨0, 0⟩ : LoxInstance).fieldsRef < ([[]] : FieldStore).length ∧
      Object.clone (.inst ⟨0, 0⟩) = .inst ⟨0, 0⟩) ∧
    LoxInstance.get []
        (LoxInstance.set [[]] ⟨0, 0⟩ (mkIdent "x" 1) (.literal (.number 1))).1
        ⟨0, 0⟩ (mkIdent "x" 1)
      = .ok (.literal (.number 1)) :=
  ⟨⟨by decide, rfl⟩,
   c10_instance_fields_shared.2 [] [[]] ⟨0, 0⟩ ⟨0, 0⟩ (mkIdent "x" 1)
     (.literal (.number 1)) (by decide) rfl⟩
